import Mathlib

/-
Verification of the 2D particle physics engine core.

The embedding below translates the simulation pipeline of the repository
into Lean: the vector algebra (engine/math/vec.py), the particle data
model (engine/physics/particle.py), forces (engine/physics/forces.py),
the Velocity Verlet integrator (engine/physics/integrate.py), the
broadphase spatial hash grid (engine/physics/collision/broadphase.py),
the circle narrowphase (engine/physics/collision/circle_circle.py),
containers (engine/physics/containers), the impulse solver
(engine/physics/solver.py), distance constraints
(engine/physics/constraints/distance_constraint.py) and the per frame
orchestration (engine/physics/particle_system.py).

Numbers are modelled by the rationals, standing for exact real
arithmetic.  The only operation of the source that leaves the rationals
is the square root; it is modelled by sqrtQ, which agrees with the real
square root exactly on perfect square rationals, and theorems that look
through a square root carry the corresponding exactness hypothesis.

Python objects are mutated in place and shared by reference: contacts
and constraints hold references to particle objects.  The embedding
makes the heap explicit: a Store is the list of all particle objects
ever created, contacts and constraints refer to particles by index into
the store, and the particle list of the system is a list of indices.
Removing a particle from the system drops its index from that list but
never shrinks the store, exactly as dropping a Python reference leaves
the object itself intact.

The Particle dataclass of the source declares no acceleration field,
yet integrate_particle reads p.acceleration; in Python this raises
AttributeError the first time a dynamic awake particle is integrated.
The model makes the attribute explicit as an Option: construction sets
it to none, reading none is the AttributeError, and integrate_particle
therefore returns an Option result (none models the raised exception,
which aborts the step and leaves the particle untouched, since the read
happens before any mutation).
-/

/-- Two dimensional vector over the rationals, mirroring Vec2 of
engine/math/vec.py. -/
structure Vec2 where
  x : ℚ
  y : ℚ
deriving DecidableEq, Repr

instance : Add Vec2 := ⟨fun a b => ⟨a.x + b.x, a.y + b.y⟩⟩
instance : Sub Vec2 := ⟨fun a b => ⟨a.x - b.x, a.y - b.y⟩⟩
instance : Neg Vec2 := ⟨fun a => ⟨-a.x, -a.y⟩⟩

/-- Scalar multiplication, Vec2.__mul__. -/
instance : HMul Vec2 ℚ Vec2 := ⟨fun v s => ⟨v.x * s, v.y * s⟩⟩

/-- Division by a scalar, Vec2.__truediv__.  The source raises on a zero
divisor; every call site of the pipeline guards the divisor away from
zero, so the Lean convention of division by zero is never exercised. -/
instance : HDiv Vec2 ℚ Vec2 := ⟨fun v s => ⟨v.x / s, v.y / s⟩⟩

def Vec2.zero : Vec2 := ⟨0, 0⟩

def Vec2.dot (a b : Vec2) : ℚ := a.x * b.x + a.y * b.y

def Vec2.length_squared (v : Vec2) : ℚ := v.x * v.x + v.y * v.y

/-- Fuel bounded Newton iteration for the integer square root; the
fuel only bounds the recursion, the result equals the Nat.sqrt
iteration whenever the fuel dominates the guess. -/
def sqrtFuelIter : Nat → Nat → Nat → Nat
  | 0, _, guess => guess
  | Nat.succ fuel, n, guess =>
      let next := (guess + n / guess) / 2
      if next < guess then sqrtFuelIter fuel n next else guess

/-- Integer square root computed with explicit fuel so that concrete
evaluation reduces structurally. -/
def natSqrt (n : Nat) : Nat :=
  if n ≤ 1 then n else sqrtFuelIter n n (n / 2)

theorem sqrtFuelIter_eq (fuel n guess : Nat) (h : guess ≤ fuel) :
    sqrtFuelIter fuel n guess = Nat.sqrt.iter n guess := by
  induction fuel generalizing guess with
  | zero =>
      interval_cases guess
      rw [sqrtFuelIter, Nat.sqrt.iter]
      simp
  | succ fuel ih =>
      rw [sqrtFuelIter, Nat.sqrt.iter]
      by_cases hlt : (guess + n / guess) / 2 < guess
      · simp only [hlt, if_true, dif_pos hlt]
        exact ih _ (by omega)
      · simp [hlt]

/-- The fuelled square root is the integer square root. -/
theorem natSqrt_eq (n : Nat) : natSqrt n = Nat.sqrt n := by
  rw [natSqrt, Nat.sqrt]
  by_cases h : n ≤ 1
  · simp [h]
  · simp only [h, if_false]
    exact sqrtFuelIter_eq n n (n / 2) (Nat.div_le_self n 2)

/-- Models math.sqrt on the rationals.  On a nonnegative perfect square
rational it returns the exact square root; elsewhere its value is an
artefact of the encoding, and theorems that depend on an exact distance
state the exactness as a hypothesis. -/
def sqrtQ (q : ℚ) : ℚ := (natSqrt q.num.toNat : ℚ) / (natSqrt q.den : ℚ)

/-- Length of a vector, Vec2.length, via the square root model. -/
def Vec2.len (v : Vec2) : ℚ := sqrtQ v.length_squared

/-- Models the Python pow on rationals.  Exact when the exponent is an
integer; the pipeline only evaluates it for the exponential damping
factor, whose numeric value no verified claim depends on. -/
def powQ (b e : ℚ) : ℚ := b ^ e.num

/-- Small epsilon for floating point comparisons, the constant 1e-8
shared by vec.py, circle_circle.py, circle_container.py and solver.py. -/
def EPSILON : ℚ := 1 / 100000000

/-- Particle state, mirroring the dataclass of engine/physics/particle.py.
The acceleration attribute is not declared by the dataclass; it only
comes into existence when integrate_particle assigns it, which the
Option models (none means the attribute is absent and reading it raises
AttributeError). -/
structure Particle where
  position : Vec2
  velocity : Vec2
  radius : ℚ
  mass : ℚ
  friction : ℚ
  restitution : ℚ
  damping : ℚ
  sleep_threshold : ℚ
  alive : Bool
  force : Vec2
  inv_mass : ℚ
  sleeping : Bool
  sleep_timer : ℚ
  acceleration : Option Vec2
deriving DecidableEq, Repr

/-- Construction error raised by the data model constructors. -/
inductive ConstructionError where
  | massNotPositive
  | cellSizeNotPositive
deriving DecidableEq, Repr

/-- Particle construction, mirroring the dataclass constructor together
with Particle.__post_init__: a nonpositive mass raises ValueError,
otherwise inv_mass is set to the reciprocal of the mass.  Optional
arguments carry the dataclass defaults. -/
def mkParticle (position velocity : Vec2) (radius mass : ℚ)
    (friction : ℚ := 3/10) (restitution : ℚ := 2/5) (damping : ℚ := 0)
    (sleep_thresh : ℚ := 1/20) (alive : Bool := true) :
    Except ConstructionError Particle :=
  if mass ≤ 0 then Except.error ConstructionError.massNotPositive
  else Except.ok
    { position := position
      velocity := velocity
      radius := radius
      mass := mass
      friction := friction
      restitution := restitution
      damping := damping
      sleep_threshold := sleep_thresh
      alive := alive
      force := Vec2.zero
      inv_mass := 1 / mass
      sleeping := false
      sleep_timer := 0
      acceleration := none }

/-- Position update of the Verlet step, lines 42 to 46 of integrate.py:
x plus v times dt plus half the old acceleration times dt squared. -/
def verletPosition (p : Particle) (accelOld : Vec2) (dt : ℚ) : Vec2 :=
  let dt_sq := dt * dt
  ⟨p.position.x + p.velocity.x * dt + 1/2 * accelOld.x * dt_sq,
   p.position.y + p.velocity.y * dt + 1/2 * accelOld.y * dt_sq⟩

/-- New acceleration from the accumulated force, lines 48 to 51 of
integrate.py. -/
def verletNewAccel (p : Particle) : Vec2 :=
  ⟨p.force.x * p.inv_mass, p.force.y * p.inv_mass⟩

/-- Velocity update of the Verlet step including the exponential
damping, lines 57 to 74 of integrate.py: v plus the average of old and
new acceleration times dt, then scaled by the damping factor when the
damping coefficient is positive. -/
def verletVelocity (p : Particle) (accelOld : Vec2) (dt : ℚ) : Vec2 :=
  let accelNew := verletNewAccel p
  let avg : Vec2 := ⟨1/2 * (accelOld.x + accelNew.x), 1/2 * (accelOld.y + accelNew.y)⟩
  let v1 : Vec2 := ⟨p.velocity.x + avg.x * dt, p.velocity.y + avg.y * dt⟩
  if 0 < p.damping then
    let clamped_damping := min p.damping (999/1000)
    let damping_factor := powQ (1 - clamped_damping) dt
    ⟨v1.x * damping_factor, v1.y * damping_factor⟩
  else v1

/-- Advances one particle by one timestep, integrate_particle of
engine/physics/integrate.py.  Dead and sleeping particles are returned
untouched, a static particle only has its force cleared, and otherwise
the Velocity Verlet update runs followed by sleep detection.  Reading
the acceleration attribute of a particle that never had it assigned is
the AttributeError of the source, modelled by the none result; the read
happens before any mutation, so the raising call leaves the particle
unchanged. -/
def integrate_particle (p : Particle) (dt : ℚ) : Option Particle :=
  if ¬ p.alive then some p
  else if p.sleeping then some p
  else if p.inv_mass = 0 then some { p with force := Vec2.zero }
  else
    match p.acceleration with
    | none => none
    | some accelOld =>
      let pos := verletPosition p accelOld dt
      let accelNew := verletNewAccel p
      let vel := verletVelocity p accelOld dt
      let speed_sq := vel.length_squared
      let threshold_sq := p.sleep_threshold * p.sleep_threshold
      if speed_sq < threshold_sq then
        let timer := p.sleep_timer + dt
        if 3/10 ≤ timer then
          some { p with position := pos, velocity := Vec2.zero,
                        force := Vec2.zero, acceleration := some Vec2.zero,
                        sleeping := true, sleep_timer := timer }
        else
          some { p with position := pos, velocity := vel,
                        force := Vec2.zero, acceleration := some accelNew,
                        sleep_timer := timer }
      else
        some { p with position := pos, velocity := vel,
                      force := Vec2.zero, acceleration := some accelNew,
                      sleep_timer := 0 }

/-- The heap of particle objects.  Indices into the store play the role
of Python object references; the store never shrinks, just as dropping
a reference does not destroy the object. -/
abbrev Store := List Particle

/-- Placeholder particle returned when a dangling index is read.  The
pipeline only ever reads indices of objects it created, so this default
is never reached on the verified paths. -/
def defaultParticle : Particle :=
  { position := Vec2.zero, velocity := Vec2.zero, radius := 0, mass := 1,
    friction := 3/10, restitution := 2/5, damping := 0,
    sleep_threshold := 1/20, alive := false, force := Vec2.zero,
    inv_mass := 1, sleeping := false, sleep_timer := 0,
    acceleration := none }

/-- Reads the particle object behind a reference. -/
def storeGet (s : Store) (pid : Nat) : Particle := (s.get? pid).getD defaultParticle

/-- Mutates the particle object behind a reference in place. -/
def storeSet (s : Store) (pid : Nat) (p : Particle) : Store := s.set pid p

/-- Reference held by a contact: either a particle object or the
synthetic StaticBody of engine/physics/static_body.py. -/
inductive BodyRef where
  | particle (pid : Nat)
  | staticBody
deriving DecidableEq, Repr

/-- Attribute alive of a referenced body; StaticBody.alive is True. -/
def bodyAlive (s : Store) : BodyRef → Bool
  | BodyRef.particle pid => (storeGet s pid).alive
  | BodyRef.staticBody => true

/-- Attribute inv_mass of a referenced body; StaticBody.inv_mass is 0. -/
def bodyInvMass (s : Store) : BodyRef → ℚ
  | BodyRef.particle pid => (storeGet s pid).inv_mass
  | BodyRef.staticBody => 0

/-- Attribute velocity of a referenced body; StaticBody.velocity is the
zero vector. -/
def bodyVelocity (s : Store) : BodyRef → Vec2
  | BodyRef.particle pid => (storeGet s pid).velocity
  | BodyRef.staticBody => Vec2.zero

/-- Attribute restitution of a referenced body; StaticBody.restitution
is 0.8. -/
def bodyRestitution (s : Store) : BodyRef → ℚ
  | BodyRef.particle pid => (storeGet s pid).restitution
  | BodyRef.staticBody => 4/5

/-- Attribute friction of a referenced body; StaticBody.friction is 0.1. -/
def bodyFriction (s : Store) : BodyRef → ℚ
  | BodyRef.particle pid => (storeGet s pid).friction
  | BodyRef.staticBody => 1/10

/-- In place update of the particle object behind a reference; writing
through the StaticBody reference never happens on guarded paths and is
a no-op here. -/
def bodyModify (s : Store) (b : BodyRef) (f : Particle → Particle) : Store :=
  match b with
  | BodyRef.particle pid => storeSet s pid (f (storeGet s pid))
  | BodyRef.staticBody => s

/-- Models math.pi as the exact rational value of the IEEE double
constant used by Python. -/
def piQ : ℚ := 884279719003555 / 281474976710656

/-- Models math.acos.  Its value only feeds the buoyant force magnitude
through the submerged fraction, on which no verified claim depends; any
total stand-in is adequate for the proofs below. -/
def acosQ (x : ℚ) : ℚ := 1 - x

/-- Force hierarchy of engine/physics/forces.py as a closed sum:
Gravity, LinearDrag, WindForce, BuoyancyForce, WaterDragForce and
RadialForce. -/
inductive Force where
  | gravity (g : Vec2)
  | linearDrag (k : ℚ)
  | wind (force : Vec2)
  | buoyancy (water_top water_bottom fluid_density gravity_mag : ℚ)
  | waterDrag (water_top water_bottom fluid_density drag_coefficient : ℚ)
  | radial (position : Vec2) (strength min_radius : ℚ)
deriving DecidableEq, Repr

/-- Normalize with epsilon, Vec2.normalized: a near zero vector maps to
the zero vector instead of dividing by zero. -/
def Vec2.normalized (v : Vec2) : Vec2 :=
  let mag := v.len
  if mag < EPSILON then Vec2.zero else v / mag

/-- Submerged area fraction of a circle below the water line,
BuoyancyForce._calculate_submerged_fraction of forces.py. -/
def submergedFraction (water_top : ℚ) (p : Particle) : ℚ :=
  let particle_top := p.position.y - p.radius
  let particle_bottom := p.position.y + p.radius
  if particle_bottom ≤ water_top then 0
  else if water_top ≤ particle_top then 1
  else
    let r := p.radius
    let h := particle_bottom - water_top
    let h := max 0 (min h (2 * r))
    if h ≤ 0 then 0
    else if 2 * r ≤ h then 1
    else
      let d := r - h
      if r ≤ |d| then (if d < 0 then 1 else 0)
      else
        let theta := acosQ (d / r)
        let segment_area := r * r * theta - d * sqrtQ (r * r - d * d)
        let circle_area := piQ * r * r
        max 0 (min 1 (segment_area / circle_area))

/-- Effect of Force.apply on one particle: every force of the source
only writes into the force accumulator of the particle.  Regional
forces gate on is_in_region first, exactly as RegionalForce.apply. -/
def applyForce (f : Force) (p : Particle) (dt : ℚ) : Particle :=
  match f with
  | Force.gravity g =>
      if p.inv_mass = 0 then p
      else { p with force := p.force + g * p.mass }
  | Force.linearDrag k =>
      { p with force := p.force + (-(p.velocity * k)) }
  | Force.wind f0 =>
      if p.inv_mass = 0 then p
      else { p with force := p.force + f0 }
  | Force.buoyancy water_top water_bottom fluid_density gravity_mag =>
      let particle_top := p.position.y - p.radius
      let particle_bottom := p.position.y + p.radius
      if particle_bottom > water_top ∧ particle_top < water_bottom then
        if p.inv_mass = 0 then p
        else
          let frac := submergedFraction water_top p
          if frac ≤ 0 then p
          else
            let particle_area := piQ * p.radius * p.radius
            let submerged_area := particle_area * frac
            let buoyant_magnitude := fluid_density * gravity_mag * submerged_area
            { p with force := ⟨p.force.x, p.force.y - buoyant_magnitude⟩ }
      else p
  | Force.waterDrag water_top water_bottom fluid_density drag_coefficient =>
      let particle_top := p.position.y - p.radius
      let particle_bottom := p.position.y + p.radius
      if particle_bottom > water_top ∧ particle_top < water_bottom then
        if p.inv_mass = 0 then p
        else
          let speed_sq := p.velocity.length_squared
          if speed_sq < 1/1000000 then p
          else
            let speed := sqrtQ speed_sq
            let cross_section := 2 * p.radius
            let drag_magnitude := 1/2 * fluid_density * drag_coefficient * cross_section * speed_sq
            let drag_direction := p.velocity / speed
            { p with force := p.force + drag_direction * (-drag_magnitude) }
      else p
  | Force.radial position strength min_radius =>
      let delta := position - p.position
      let dist_sq := delta.length_squared
      let dist_sq := max dist_sq (min_radius * min_radius)
      let direction := delta.normalized
      let force_mag := strength / dist_sq
      { p with force := p.force + direction * force_mag }

/-- Contact record of engine/physics/contact.py: references to the two
bodies, the normal from A to B, the penetration depth and the contact
points. -/
structure Contact where
  a : BodyRef
  b : BodyRef
  normal : Vec2
  penetration : ℚ
  contact_points : List Vec2
deriving DecidableEq, Repr

/-- Narrowphase circle test, circle_circle of
engine/physics/collision/circle_circle.py.  The Python function
receives the two particle objects; the model additionally receives the
references to store into the produced contact. -/
def circle_circle (a b : Particle) (ra rb : BodyRef) : Option Contact :=
  let delta := b.position - a.position
  let dist_sq := delta.length_squared
  let radius_sum := a.radius + b.radius
  let radius_sum_sq := radius_sum * radius_sum
  if radius_sum_sq ≤ dist_sq then none
  else if a.inv_mass = 0 ∧ b.inv_mass = 0 then none
  else if dist_sq < EPSILON * EPSILON then
    some { a := ra, b := rb, normal := ⟨1, 0⟩, penetration := radius_sum,
           contact_points := [a.position] }
  else
    let distance := sqrtQ dist_sq
    let normal := delta / distance
    let penetration := radius_sum - distance
    let contact_point := a.position + normal * (a.radius - penetration * (1/2))
    some { a := ra, b := rb, normal := normal, penetration := penetration,
           contact_points := [contact_point] }

/-- Container hierarchy of engine/physics/containers: the axis aligned
rectangle keeps particles inside its bounds, the circle keeps them
inside its disc. -/
inductive Container where
  | rectangle (lo hi : Vec2)
  | circle (center : Vec2) (radius : ℚ)
deriving DecidableEq, Repr

/-- RectangleContainer construction from x, y, width and height. -/
def mkRectangleContainer (x y width height : ℚ) : Container :=
  Container.rectangle ⟨x, y⟩ ⟨x + width, y + height⟩

/-- Contacts of a particle against a container, generate_contacts of
rectangle_container.py and circle_container.py.  The contact always
holds the particle as body A and a fresh StaticBody as body B. -/
def generateContacts (c : Container) (p : Particle) (ref : BodyRef) : List Contact :=
  match c with
  | Container.rectangle lo hi =>
      let r := p.radius
      let left : List Contact :=
        if p.position.x - r < lo.x then
          [{ a := ref, b := BodyRef.staticBody, normal := ⟨-1, 0⟩,
             penetration := lo.x - (p.position.x - r),
             contact_points := [⟨lo.x + r, p.position.y⟩] }]
        else []
      let right : List Contact :=
        if hi.x < p.position.x + r then
          [{ a := ref, b := BodyRef.staticBody, normal := ⟨1, 0⟩,
             penetration := (p.position.x + r) - hi.x,
             contact_points := [⟨hi.x - r, p.position.y⟩] }]
        else []
      let top : List Contact :=
        if p.position.y - r < lo.y then
          [{ a := ref, b := BodyRef.staticBody, normal := ⟨0, -1⟩,
             penetration := lo.y - (p.position.y - r),
             contact_points := [⟨p.position.x, lo.y + r⟩] }]
        else []
      let bottom : List Contact :=
        if hi.y < p.position.y + r then
          [{ a := ref, b := BodyRef.staticBody, normal := ⟨0, 1⟩,
             penetration := (p.position.y + r) - hi.y,
             contact_points := [⟨p.position.x, hi.y - r⟩] }]
        else []
      left ++ right ++ top ++ bottom
  | Container.circle center radius =>
      let delta := p.position - center
      let dist := delta.len
      if dist < EPSILON then
        [{ a := ref, b := BodyRef.staticBody, normal := ⟨1, 0⟩,
           penetration := radius - p.radius,
           contact_points := [center + (⟨1, 0⟩ : Vec2) * (radius - p.radius)] }]
      else if dist + p.radius ≤ radius then []
      else
        let penetration := dist + p.radius - radius
        let normal := delta / dist
        [{ a := ref, b := BodyRef.staticBody, normal := normal,
           penetration := penetration,
           contact_points := [center + normal * (radius - p.radius)] }]

/-- Velocity threshold below which a collision counts as resting,
RESTING_VELOCITY_THRESHOLD of solver.py. -/
def RESTING_VELOCITY_THRESHOLD : ℚ := 1

/-- Wake threshold on relative normal speed, WAKE_THRESHOLD_VELOCITY. -/
def WAKE_THRESHOLD_VELOCITY : ℚ := 1/10

/-- Wake threshold on penetration, WAKE_THRESHOLD_PENETRATION. -/
def WAKE_THRESHOLD_PENETRATION : ℚ := 1/10

/-- Wakes a sleeping referenced body whose inverse mass is positive,
lines 78 to 84 of solver.py.  StaticBody has no sleeping attribute, so
the hasattr guard makes it a no-op. -/
def wakeBody (s : Store) (b : BodyRef) : Store :=
  match b with
  | BodyRef.particle pid =>
      let p := storeGet s pid
      if p.sleeping ∧ 0 < p.inv_mass then
        storeSet s pid { p with sleeping := false, sleep_timer := 0 }
      else s
  | BodyRef.staticBody => s

/-- Adds an impulse to the velocities of the two bodies of a contact:
body A receives the negated impulse scaled by its inverse mass, body B
the impulse scaled by its inverse mass, each only when that inverse
mass is positive.  Shared by the normal and the friction passes of
resolve_contact. -/
def applyImpulse (s : Store) (c : Contact) (impulse : Vec2) : Store :=
  let ima := bodyInvMass s c.a
  let imb := bodyInvMass s c.b
  let s1 := if 0 < ima then
      bodyModify s c.a (fun p => { p with velocity := p.velocity - impulse * ima })
    else s
  if 0 < imb then
    bodyModify s1 c.b (fun p => { p with velocity := p.velocity + impulse * imb })
  else s1

/-- Friction pass of resolve_contact, lines 120 to 167 of solver.py:
the relative velocity is recomputed after the normal impulse, its
tangential part is extracted, negligible tangential speed returns
early, and otherwise the tangential impulse clamped by Coulomb friction
is applied.  The inverse masses and the normal impulse magnitude are the
locals the source computed before this block. -/
def frictionPass (s : Store) (c : Contact) (inv_mass_a inv_mass_b j : ℚ) : Store :=
  let rv := bodyVelocity s c.b - bodyVelocity s c.a
  let tangent := rv - c.normal * (rv.dot c.normal)
  let tangent_len_sq := tangent.length_squared
  if tangent_len_sq < EPSILON * EPSILON then s
  else
    let tangent := tangent / sqrtQ tangent_len_sq
    let jt := (-(rv.dot tangent)) / (inv_mass_a + inv_mass_b)
    let mu := sqrtQ (bodyFriction s c.a * bodyFriction s c.b)
    let max_friction := j * mu
    let jt := max (-max_friction) (min jt max_friction)
    let friction_impulse := tangent * jt
    applyImpulse s c friction_impulse

/-- Impulse based contact resolution, resolve_contact of
engine/physics/solver.py: early outs for dead bodies, two static
bodies and separating contacts; wake of sleeping bodies only on a
significant collision; restitution forced to zero below the resting
threshold; normal impulse; then Coulomb friction along the tangent.
The debug print at the head of the source function has no state
effect. -/
def resolve_contact (s : Store) (c : Contact) : Store :=
  if ¬ (bodyAlive s c.a ∧ bodyAlive s c.b) then s
  else
    let inv_mass_a := bodyInvMass s c.a
    let inv_mass_b := bodyInvMass s c.b
    if inv_mass_a = 0 ∧ inv_mass_b = 0 then s
    else
      let rv := bodyVelocity s c.b - bodyVelocity s c.a
      let vel_along_normal := rv.dot c.normal
      if 0 < vel_along_normal then s
      else
        let significant :=
          WAKE_THRESHOLD_VELOCITY < |vel_along_normal| ∨
          WAKE_THRESHOLD_PENETRATION < c.penetration
        let s := if significant then wakeBody (wakeBody s c.a) c.b else s
        let restitution := min (bodyRestitution s c.a) (bodyRestitution s c.b)
        let restitution :=
          if |vel_along_normal| < RESTING_VELOCITY_THRESHOLD then 0 else restitution
        let j := (-(1 + restitution) * vel_along_normal) / (inv_mass_a + inv_mass_b)
        let impulse := c.normal * j
        let s := applyImpulse s c impulse
        frictionPass s c inv_mass_a inv_mass_b j

/-- Penetration resolution, positional_correction of solver.py:
Baumgarte style correction with slop 0.01 and strength 0.8, clamped to
a maximum displacement of 2 per pass, applied to the positions of the
two bodies proportionally to their inverse masses. -/
def positional_correction (s : Store) (c : Contact) : Store :=
  let inv_mass_a := bodyInvMass s c.a
  let inv_mass_b := bodyInvMass s c.b
  if inv_mass_a + inv_mass_b = 0 then s
  else
    let percent : ℚ := 4/5
    let slop : ℚ := 1/100
    let correction_mag := max (c.penetration - slop) 0
    let correction_mag := correction_mag / (inv_mass_a + inv_mass_b)
    let correction_mag := correction_mag * percent
    let correction_mag := min correction_mag 2
    let correction := c.normal * correction_mag
    let s1 := if 0 < inv_mass_a then
        bodyModify s c.a (fun p => { p with position := p.position - correction * inv_mass_a })
      else s
    if 0 < inv_mass_b then
      bodyModify s1 c.b (fun p => { p with position := p.position + correction * inv_mass_b })
    else s1

/-- Distance constraint between two particle objects,
engine/physics/constraints/distance_constraint.py.  The stored previous
positions of the Python constructor are never read by solve and are
omitted.  Stiffness is clamped into the unit interval at construction. -/
structure DistanceConstraint where
  particle_a : Nat
  particle_b : Nat
  distance : ℚ
  stiffness : ℚ
deriving DecidableEq, Repr

/-- DistanceConstraint construction with an explicit target distance. -/
def mkDistanceConstraint (a b : Nat) (distance : ℚ) (stiffness : ℚ := 1) :
    DistanceConstraint :=
  { particle_a := a, particle_b := b, distance := distance,
    stiffness := max 0 (min 1 stiffness) }

/-- Endpoint update of the distance constraint, lines 77 to 95 of
distance_constraint.py: move the particle by its share of the
correction, then backfill its velocity from the position change against
the captured previous position when dt is above epsilon. -/
def constraintMove (q : Nat) (share prev : Vec2) (dt : ℚ) (s : Store) : Store :=
  let p := storeGet s q
  let p := { p with position := p.position + share }
  let p :=
    if EPSILON < dt then
      let pos_change := p.position - prev
      { p with velocity := p.velocity + pos_change * (1/dt) }
    else p
  storeSet s q p

/-- Position based solve of the distance constraint,
DistanceConstraint.solve: skip when an endpoint is dead, the separation
is near zero, the error is within tolerance or the total inverse mass
is near zero; otherwise split the correction between the endpoints
proportionally to their inverse masses (particle A moves along the
correction, particle B against it) and backfill their velocities from
the position change divided by dt. -/
def solveConstraint (con : DistanceConstraint) (dt : ℚ) (s : Store) : Store :=
  let pa := storeGet s con.particle_a
  let pb := storeGet s con.particle_b
  if ¬ (pa.alive ∧ pb.alive) then s
  else
    let prev_a := pa.position
    let prev_b := pb.position
    let delta := pb.position - pa.position
    let current_distance := delta.len
    if current_distance < EPSILON then s
    else
      let error := current_distance - con.distance
      if |error| < 1/1000000 then s
      else
        let direction := delta / current_distance
        let inv_mass_a := pa.inv_mass
        let inv_mass_b := pb.inv_mass
        let total_inv_mass := inv_mass_a + inv_mass_b
        if total_inv_mass < EPSILON then s
        else
          let correction_magnitude := error * con.stiffness
          let correction := direction * correction_magnitude
          let s1 :=
            if 0 < inv_mass_a then
              constraintMove con.particle_a
                (correction * (inv_mass_a / total_inv_mass)) prev_a dt s
            else s
          if 0 < inv_mass_b then
            constraintMove con.particle_b
              (-(correction * (inv_mass_b / total_inv_mass))) prev_b dt s1
          else s1

/-- Integer range from lo to hi inclusive, the Python
range(lo, hi + 1). -/
def intRange (lo hi : Int) : List Int :=
  (List.range (hi + 1 - lo).toNat).map (fun (n : Nat) => lo + (n : Int))

/-- Spatial hash grid of engine/physics/collision/broadphase.py.  The
cells dictionary is a defaultdict from cell coordinate to the list of
inserted particles; Python dictionaries preserve the insertion order of
their keys, which the association list mirrors. -/
structure SpatialHashGrid where
  cell_size : ℚ
  inv_cell_size : ℚ
  cells : List ((Int × Int) × List Nat)
deriving DecidableEq, Repr

/-- SpatialHashGrid construction: a nonpositive cell size raises
ValueError. -/
def mkSpatialHashGrid (cell_size : ℚ) : Except ConstructionError SpatialHashGrid :=
  if cell_size ≤ 0 then Except.error ConstructionError.cellSizeNotPositive
  else Except.ok { cell_size := cell_size, inv_cell_size := 1 / cell_size, cells := [] }

/-- Cell coordinate of a point, SpatialHashGrid._hash_coord. -/
def hashCoord (g : SpatialHashGrid) (x y : ℚ) : Int × Int :=
  (⌊x * g.inv_cell_size⌋, ⌊y * g.inv_cell_size⌋)

/-- All cell coordinates overlapped by an axis aligned box,
SpatialHashGrid._cells_for_aabb: the inclusive integer grid rectangle
between the cells of the two corners, x outer and y inner. -/
def cellsForAABB (g : SpatialHashGrid) (lo hi : Vec2) : List (Int × Int) :=
  let cmin := hashCoord g lo.x lo.y
  let cmax := hashCoord g hi.x hi.y
  (intRange cmin.1 cmax.1).flatMap (fun cx => (intRange cmin.2 cmax.2).map (fun cy => (cx, cy)))

/-- Appends a particle to the cell list of a coordinate, creating the
key at the end of the dictionary when it is new, as a defaultdict
does. -/
def cellsAppend (cells : List ((Int × Int) × List Nat)) (coord : Int × Int) (pid : Nat) :
    List ((Int × Int) × List Nat) :=
  match cells with
  | [] => [(coord, [pid])]
  | (c, ps) :: rest =>
      if c = coord then (c, ps ++ [pid]) :: rest
      else (c, ps) :: cellsAppend rest coord pid

/-- Inserts a particle into every cell overlapped by its axis aligned
bounding box, SpatialHashGrid.insert.  The box spans the position plus
and minus the radius vector. -/
def gridInsert (g : SpatialHashGrid) (pid : Nat) (p : Particle) : SpatialHashGrid :=
  let lo := p.position - ⟨p.radius, p.radius⟩
  let hi := p.position + ⟨p.radius, p.radius⟩
  { g with cells := (cellsForAABB g lo hi).foldl (fun cs coord => cellsAppend cs coord pid) g.cells }

/-- Canonical unordered key of a pair of particle identities.  The
source orders the two Python object ids; the model orders the store
indices, which serve as the stable per object identity. -/
def pairKey (a b : Nat) : Nat × Nat := if a < b then (a, b) else (b, a)

/-- All ordered pairs of a list with the first component strictly
earlier, matching the nested index loops of compute_pairs. -/
def allPairs : List Nat → List (Nat × Nat)
  | [] => []
  | a :: rest => rest.map (fun b => (a, b)) ++ allPairs rest

/-- One deduplication step of compute_pairs: skip a pair whose
canonical key was already seen, otherwise record key and pair. -/
def addPair (st : List (Nat × Nat) × List (Nat × Nat)) (ab : Nat × Nat) :
    List (Nat × Nat) × List (Nat × Nat) :=
  let key := pairKey ab.1 ab.2
  if key ∈ st.1 then st else (key :: st.1, st.2 ++ [ab])

/-- Unique candidate pairs of the grid, SpatialHashGrid.compute_pairs:
for every cell holding at least two particles, every index ordered pair
of the cell, deduplicated by the canonical key across cells. -/
def computePairs (g : SpatialHashGrid) : List (Nat × Nat) :=
  (g.cells.foldl
    (fun st cell =>
      if cell.2.length < 2 then st
      else (allPairs cell.2).foldl addPair st)
    ([], [])).2

/-- Particle system of engine/physics/particle_system.py.  The store is
the explicit heap of particle objects; the particles field is the list
the system owns, as references into the store. -/
structure ParticleSystem where
  store : Store
  particles : List Nat
  global_forces : List Force
  local_forces : List Force
  paused : Bool
  broadphase : SpatialHashGrid
  solver_iterations : Nat
  containers : List Container
  constraints : List DistanceConstraint
deriving DecidableEq, Repr

/-- ParticleSystem.__init__: empty collections, not paused, a spatial
hash grid of cell size 20 and 20 solver iterations. -/
def mkParticleSystem : ParticleSystem :=
  { store := [], particles := [], global_forces := [], local_forces := [],
    paused := false,
    broadphase := { cell_size := 20, inv_cell_size := 1/20, cells := [] },
    solver_iterations := 20, containers := [], constraints := [] }

/-- ParticleSystem.add_particle: appends a fresh object to the heap and
its reference to the owned list. -/
def ParticleSystem.add_particle (sys : ParticleSystem) (p : Particle) : ParticleSystem :=
  { sys with store := sys.store ++ [p], particles := sys.particles ++ [sys.store.length] }

/-- ParticleSystem.clear: removes all particles and constraints. -/
def ParticleSystem.clear (sys : ParticleSystem) : ParticleSystem :=
  { sys with particles := [], constraints := [] }

/-- ParticleSystem.remove_dead: keeps only the references to live
particles. -/
def ParticleSystem.remove_dead (sys : ParticleSystem) : ParticleSystem :=
  { sys with particles := sys.particles.filter (fun pid => (storeGet sys.store pid).alive) }

/-- ParticleSystem.add_global_force. -/
def ParticleSystem.add_global_force (sys : ParticleSystem) (f : Force) : ParticleSystem :=
  { sys with global_forces := sys.global_forces ++ [f] }

/-- ParticleSystem.add_local_force. -/
def ParticleSystem.add_local_force (sys : ParticleSystem) (f : Force) : ParticleSystem :=
  { sys with local_forces := sys.local_forces ++ [f] }

/-- ParticleSystem.clear_forces. -/
def ParticleSystem.clear_forces (sys : ParticleSystem) : ParticleSystem :=
  { sys with global_forces := [], local_forces := [] }

/-- ParticleSystem.add_container. -/
def ParticleSystem.add_container (sys : ParticleSystem) (c : Container) : ParticleSystem :=
  { sys with containers := sys.containers ++ [c] }

/-- ParticleSystem.add_constraint. -/
def ParticleSystem.add_constraint (sys : ParticleSystem) (c : DistanceConstraint) : ParticleSystem :=
  { sys with constraints := sys.constraints ++ [c] }

/-- Force accumulation phase of ParticleSystem.step: every live awake
particle receives every global force and then every local force. -/
def forcePhase (globals locals : List Force) (dt : ℚ) (s : Store) (pids : List Nat) : Store :=
  pids.foldl
    (fun s pid =>
      let p := storeGet s pid
      if ¬ p.alive ∨ p.sleeping then s
      else
        let p := globals.foldl (fun p f => applyForce f p dt) p
        let p := locals.foldl (fun p f => applyForce f p dt) p
        storeSet s pid p)
    s

/-- Integration phase of ParticleSystem.step.  The loop stops at the
first particle whose integration raises (the missing acceleration
attribute); the false flag reports the exception and the store carries
the mutations already performed, exactly as the in place loop of the
source would leave them. -/
def integratePhase (dt : ℚ) (s : Store) : List Nat → Bool × Store
  | [] => (true, s)
  | pid :: rest =>
      match integrate_particle (storeGet s pid) dt with
      | none => (false, s)
      | some p => integratePhase dt (storeSet s pid p) rest

/-- Narrowphase over the candidate pairs: keeps the contacts the circle
test confirms, in candidate order. -/
def narrowphase (s : Store) (pairs : List (Nat × Nat)) : List Contact :=
  pairs.foldl
    (fun acc ab =>
      match circle_circle (storeGet s ab.1) (storeGet s ab.2)
          (BodyRef.particle ab.1) (BodyRef.particle ab.2) with
      | none => acc
      | some contact => acc ++ [contact])
    []

/-- Container contacts of every live particle against every container,
in particle outer and container inner order. -/
def containerPhase (s : Store) (containers : List Container) (pids : List Nat) : List Contact :=
  pids.foldl
    (fun acc pid =>
      let p := storeGet s pid
      if ¬ p.alive then acc
      else containers.foldl (fun acc c => acc ++ generateContacts c p (BodyRef.particle pid)) acc)
    []

/-- One solver iteration: all contacts resolved, then all constraints
solved, in production order. -/
def solverIteration (contacts : List Contact) (constraints : List DistanceConstraint)
    (dt : ℚ) (s : Store) : Store :=
  let s := contacts.foldl resolve_contact s
  constraints.foldl (fun s con => solveConstraint con dt s) s

/-- Repeats the solver iteration n times. -/
def solverLoop (n : Nat) (contacts : List Contact) (constraints : List DistanceConstraint)
    (dt : ℚ) (s : Store) : Store :=
  match n with
  | 0 => s
  | Nat.succ m => solverLoop m contacts constraints dt (solverIteration contacts constraints dt s)

/-- Advances the simulation by one timestep, ParticleSystem.step: a
paused system returns immediately; otherwise forces accumulate, every
particle integrates (a raised AttributeError aborts the step with the
false flag), the broadphase is rebuilt over the live particles, the
narrowphase and the containers produce the contacts, the solver
iterates, positional correction runs once and dead particles are
removed. -/
def ParticleSystem.step (sys : ParticleSystem) (dt : ℚ) : Bool × ParticleSystem :=
  if sys.paused then (true, sys)
  else
    let s1 := forcePhase sys.global_forces sys.local_forces dt sys.store sys.particles
    match integratePhase dt s1 sys.particles with
    | (false, s2) => (false, { sys with store := s2 })
    | (true, s2) =>
      let grid0 := { sys.broadphase with cells := [] }
      let grid := sys.particles.foldl
        (fun g pid =>
          let p := storeGet s2 pid
          if p.alive then gridInsert g pid p else g)
        grid0
      let candidate_pairs := computePairs grid
      let contacts := narrowphase s2 candidate_pairs
      let contacts := contacts ++ containerPhase s2 sys.containers sys.particles
      let s3 := solverLoop sys.solver_iterations contacts sys.constraints dt s2
      let s4 := contacts.foldl positional_correction s3
      let sys1 := { sys with store := s4, broadphase := grid }
      (true, sys1.remove_dead)

/-- Iterates step n times, keeping the state a crashing step leaves
behind. -/
def stepN (sys : ParticleSystem) (dt : ℚ) : Nat → ParticleSystem
  | 0 => sys
  | Nat.succ m => stepN ((sys.step dt).2) dt m

/-- List.set leaves entries at other indices untouched. -/
theorem get?_set_ne {α : Type} (l : List α) (i j : Nat) (a : α) (h : i ≠ j) :
    (l.set j a).get? i = l.get? i := by
  induction l generalizing i j with
  | nil => simp
  | cons x xs ih =>
      cases j with
      | zero =>
          cases i with
          | zero => exact absurd rfl h
          | succ i => simp
      | succ j =>
          cases i with
          | zero => simp
          | succ i => simpa using ih i j (fun hc => h (by simp [hc]))

/-- List.set stores the value at an index inside the list. -/
theorem get?_set_eq {α : Type} (l : List α) (j : Nat) (a : α) (h : j < l.length) :
    (l.set j a).get? j = some a := by
  induction l generalizing j with
  | nil => simp at h
  | cons x xs ih =>
      cases j with
      | zero => simp
      | succ j => simpa using ih j (by simpa using h)

/-- List.set out of range is the identity. -/
theorem set_of_ge {α : Type} (l : List α) (j : Nat) (a : α) (h : l.length ≤ j) :
    l.set j a = l := by
  induction l generalizing j with
  | nil => simp
  | cons x xs ih =>
      cases j with
      | zero => simp at h
      | succ j => simpa using ih j (by simpa using h)

/-- Reading back an in place write at the same reference. -/
theorem storeGet_storeSet_eq (s : Store) (pid : Nat) (p : Particle) (h : pid < s.length) :
    storeGet (storeSet s pid p) pid = p := by
  induction s generalizing pid with
  | nil => simp at h
  | cons x xs ih =>
      cases pid with
      | zero => simp [storeGet, storeSet]
      | succ pid =>
          have := ih pid (by simpa using h)
          simpa [storeGet, storeSet] using this

/-- Reading another reference after an in place write. -/
theorem storeGet_storeSet_ne (s : Store) (pid q : Nat) (p : Particle) (h : pid ≠ q) :
    storeGet (storeSet s q p) pid = storeGet s pid := by
  induction s generalizing pid q with
  | nil => simp [storeGet, storeSet]
  | cons x xs ih =>
      cases q with
      | zero =>
          cases pid with
          | zero => exact absurd rfl h
          | succ pid => simp [storeGet, storeSet]
      | succ q =>
          cases pid with
          | zero => simp [storeGet, storeSet]
          | succ pid =>
              have := ih pid q (fun hc => h (by simp [hc]))
              simpa [storeGet, storeSet] using this

/-- An in place write never changes the heap size. -/
theorem storeSet_length (s : Store) (pid : Nat) (p : Particle) :
    (storeSet s pid p).length = s.length := by
  simp [storeSet]

/-- A generic fold preservation principle: an invariant kept by every
single application is kept by the whole fold. -/
theorem foldl_preserves {α β : Type} (P : β → Prop) (f : β → α → β)
    (h : ∀ b a, P b → P (f b a)) :
    ∀ (l : List α) (b : β), P b → P (l.foldl f b) := by
  intro l
  induction l with
  | nil => intro b hb; simpa using hb
  | cons x xs ih => intro b hb; exact ih (f b x) (h b x hb)

/-- Decidable equality of Except results, used to evaluate theorems on
concrete constructor outcomes. -/
instance {e a : Type} [DecidableEq e] [DecidableEq a] : DecidableEq (Except e a) := fun x y =>
  match x, y with
  | Except.error e1, Except.error e2 =>
      if h : e1 = e2 then isTrue (by rw [h]) else isFalse (by intro hc; cases hc; exact h rfl)
  | Except.error _, Except.ok _ => isFalse (by intro hc; cases hc)
  | Except.ok _, Except.error _ => isFalse (by intro hc; cases hc)
  | Except.ok a1, Except.ok a2 =>
      if h : a1 = a2 then isTrue (by rw [h]) else isFalse (by intro hc; cases hc; exact h rfl)

/-- The fresh particle of the claim one failing input, spelled out as
the dataclass constructor produces it: alive, awake, dynamic, and with
no acceleration attribute. -/
def freshParticle : Particle :=
  { position := ⟨0, 0⟩, velocity := ⟨1, 0⟩, radius := 1, mass := 1,
    friction := 3/10, restitution := 2/5, damping := 0,
    sleep_threshold := 1/20, alive := true, force := Vec2.zero,
    inv_mass := 1, sleeping := false, sleep_timer := 0,
    acceleration := none }

/-- C1.  The claim says integrate_particle advances every alive, awake
particle of positive inverse mass by Velocity Verlet using the stored
previous frame acceleration.  The code cannot: the Particle dataclass
declares no acceleration field, so the very first integration of a
freshly constructed dynamic particle reads a missing attribute and
raises AttributeError (the none result below) instead of advancing the
particle.  The spec data model and the integrate_particle docstring
both require the stored acceleration, so this is a slip in the code. -/
theorem claim1_integrate_crashes_on_fresh_particle :
    mkParticle ⟨0, 0⟩ ⟨1, 0⟩ 1 1 = Except.ok freshParticle ∧
    freshParticle.alive = true ∧
    freshParticle.sleeping = false ∧
    0 < freshParticle.inv_mass ∧
    integrate_particle freshParticle (1/60) = none := by
  refine ⟨by with_unfolding_all decide, by decide, by decide,
    by norm_num [freshParticle], by with_unfolding_all decide⟩

/-- C8.  Constructing a particle with nonpositive mass is rejected with
a construction error, and a positive mass yields a particle whose
inverse mass is the reciprocal of the mass. -/
theorem claim8_mass_positivity (position velocity : Vec2)
    (radius mass friction restitution damping st : ℚ) (alive : Bool) :
    (mass ≤ 0 →
      mkParticle position velocity radius mass friction restitution damping st alive =
        Except.error ConstructionError.massNotPositive) ∧
    (0 < mass →
      (mkParticle position velocity radius mass friction restitution damping st alive).map
          Particle.inv_mass = Except.ok (1 / mass)) := by
  constructor
  · intro h
    simp [mkParticle, h]
  · intro h
    simp [mkParticle, not_le.mpr h, Except.map]

/-- Witness for C8 at the concrete masses minus one and two. -/
theorem claim8_witness :
    ((-1 : ℚ) ≤ 0 ∧
      mkParticle ⟨0, 0⟩ ⟨0, 0⟩ 1 (-1) (3/10) (2/5) 0 (1/20) true =
        Except.error ConstructionError.massNotPositive) ∧
    ((0 : ℚ) < 2 ∧
      (mkParticle ⟨0, 0⟩ ⟨0, 0⟩ 1 2 (3/10) (2/5) 0 (1/20) true).map
          Particle.inv_mass = Except.ok (1 / 2)) :=
  ⟨⟨by norm_num,
    (claim8_mass_positivity ⟨0, 0⟩ ⟨0, 0⟩ 1 (-1) (3/10) (2/5) 0 (1/20) true).1 (by norm_num)⟩,
   ⟨by norm_num,
    (claim8_mass_positivity ⟨0, 0⟩ ⟨0, 0⟩ 1 2 (3/10) (2/5) 0 (1/20) true).2 (by norm_num)⟩⟩

/-- C9.  A paused system returns from step immediately: no phase runs
and the returned system is the input system, every particle field
included. -/
theorem claim9_paused_step_is_identity (sys : ParticleSystem) (dt : ℚ)
    (h : sys.paused = true) : sys.step dt = (true, sys) := by
  simp [ParticleSystem.step, h]

/-- Witness for C9 on a concrete paused system. -/
theorem claim9_witness :
    ({ mkParticleSystem with paused := true } : ParticleSystem).step (1/60) =
      (true, { mkParticleSystem with paused := true }) :=
  claim9_paused_step_is_identity { mkParticleSystem with paused := true } (1/60) rfl

/-- C10.  clear empties the particle list and the constraint list and
leaves containers, global and local forces, the paused flag, the solver
iteration count, the broadphase grid and the heap of already created
objects untouched, so previously registered containers and forces stay
in effect for particles added afterwards. -/
theorem claim10_clear_scope (sys : ParticleSystem) :
    sys.clear.particles = [] ∧
    sys.clear.constraints = [] ∧
    sys.clear.containers = sys.containers ∧
    sys.clear.global_forces = sys.global_forces ∧
    sys.clear.local_forces = sys.local_forces ∧
    sys.clear.paused = sys.paused ∧
    sys.clear.solver_iterations = sys.solver_iterations ∧
    sys.clear.broadphase = sys.broadphase ∧
    sys.clear.store = sys.store := by
  simp [ParticleSystem.clear]

/-- Particle value builder for concrete test states.  The mass field is
set to one; the physics reads only the stored inverse mass. -/
def testParticle (px py vx vy r im : ℚ) (rest : ℚ := 2/5) (fric : ℚ := 3/10)
    (slp : Bool := false) (thr : ℚ := 1/20) (acc : Option Vec2 := some Vec2.zero) : Particle :=
  { position := ⟨px, py⟩, velocity := ⟨vx, vy⟩, radius := r, mass := 1,
    friction := fric, restitution := rest, damping := 0, sleep_threshold := thr,
    alive := true, force := Vec2.zero, inv_mass := im, sleeping := slp,
    sleep_timer := 0, acceleration := acc }

/-- The square root model is exact on perfect squares: sqrtQ of d
squared is d for nonnegative d. -/
theorem sqrtQ_mul_self (d : ℚ) (hd : 0 ≤ d) : sqrtQ (d * d) = d := by
  have hnum : (d * d).num = d.num * d.num := Rat.mul_self_num d
  have hden : (d * d).den = d.den * d.den := Rat.mul_self_den d
  have hdnum : 0 ≤ d.num := Rat.num_nonneg.mpr hd
  have hton : (d.num * d.num).toNat = d.num.toNat * d.num.toNat := by
    rcases Int.eq_ofNat_of_zero_le hdnum with ⟨n, hn⟩
    rw [hn]
    exact_mod_cast rfl
  have h1 : natSqrt ((d * d).num.toNat) = d.num.toNat := by
    rw [natSqrt_eq, hnum, hton, Nat.sqrt_eq]
  have h2 : natSqrt ((d * d).den) = d.den := by
    rw [natSqrt_eq, hden, Nat.sqrt_eq]
  have hcast : (d.num.toNat : ℚ) = (d.num : ℚ) := by
    rcases Int.eq_ofNat_of_zero_le hdnum with ⟨n, hn⟩
    simp [hn]
  rw [sqrtQ, h1, h2, hcast, Rat.num_div_den]

/-- C5.  Behaviour of the circle narrowphase, case by case as the spec
states it: no contact when the squared centre distance reaches the
squared radius sum or both bodies are static; a fixed normal of plus X
with penetration equal to the radius sum on coincident centres; and in
the general case the normalized centre delta, penetration radius sum
minus distance and the contact point on the surface of A offset by
radius A minus half the penetration.  The general case carries the
hypothesis that the centre distance is exactly representable, under
which sqrtQ is the true distance. -/
theorem claim5_circle_circle_spec (a b : Particle) (ra rb : BodyRef) :
    ((a.radius + b.radius) * (a.radius + b.radius) ≤
        (b.position - a.position).length_squared →
      circle_circle a b ra rb = none) ∧
    (a.inv_mass = 0 ∧ b.inv_mass = 0 → circle_circle a b ra rb = none) ∧
    ((b.position - a.position).length_squared <
        (a.radius + b.radius) * (a.radius + b.radius) →
      ¬ (a.inv_mass = 0 ∧ b.inv_mass = 0) →
      (b.position - a.position).length_squared < EPSILON * EPSILON →
      circle_circle a b ra rb =
        some { a := ra, b := rb, normal := ⟨1, 0⟩,
               penetration := a.radius + b.radius,
               contact_points := [a.position] }) ∧
    (∀ d : ℚ, 0 ≤ d →
      d * d = (b.position - a.position).length_squared →
      (b.position - a.position).length_squared <
        (a.radius + b.radius) * (a.radius + b.radius) →
      ¬ (a.inv_mass = 0 ∧ b.inv_mass = 0) →
      ¬ (b.position - a.position).length_squared < EPSILON * EPSILON →
      circle_circle a b ra rb =
        some { a := ra, b := rb
               normal := (b.position - a.position) / d
               penetration := (a.radius + b.radius) - d
               contact_points := [a.position +
                 ((b.position - a.position) / d) *
                   (a.radius - ((a.radius + b.radius) - d) * (1/2))] }) := by
  refine ⟨?_, ?_, ?_, ?_⟩
  · intro h
    simp [circle_circle, h]
  · intro h
    by_cases hle : (a.radius + b.radius) * (a.radius + b.radius) ≤
        (b.position - a.position).length_squared
    · simp [circle_circle, hle]
    · simp [circle_circle, hle, h]
  · intro h1 h2 h3
    simp [circle_circle, not_le.mpr h1, h2, h3]
  · intro d hd0 hdd h1 h2 h3
    have hs : sqrtQ (b.position - a.position).length_squared = d := by
      rw [← hdd, sqrtQ_mul_self d hd0]
    simp [circle_circle, not_le.mpr h1, h2, h3, hs]

/-- Witness for C5: each narrowphase case applied at concrete inputs:
separated circles, two overlapping static circles, coincident centres
and a plain overlap at centre distance three halves. -/
theorem claim5_witness :
    (circle_circle (testParticle 0 0 0 0 1 1) (testParticle 3 0 0 0 1 1)
        (BodyRef.particle 0) (BodyRef.particle 1) = none) ∧
    (circle_circle (testParticle 0 0 0 0 1 0) (testParticle 1 0 0 0 1 0)
        (BodyRef.particle 0) (BodyRef.particle 1) = none) ∧
    (circle_circle (testParticle 0 0 0 0 1 1) (testParticle 0 0 0 0 1 1)
        (BodyRef.particle 0) (BodyRef.particle 1) =
      some { a := BodyRef.particle 0, b := BodyRef.particle 1, normal := ⟨1, 0⟩,
             penetration := 2, contact_points := [⟨0, 0⟩] }) ∧
    (circle_circle (testParticle 0 0 0 0 1 1) (testParticle (3/2) 0 0 0 1 1)
        (BodyRef.particle 0) (BodyRef.particle 1) =
      some { a := BodyRef.particle 0, b := BodyRef.particle 1, normal := ⟨1, 0⟩,
             penetration := 1/2, contact_points := [⟨3/4, 0⟩] }) := by
  refine ⟨?_, ?_, ?_, ?_⟩
  · exact (claim5_circle_circle_spec (testParticle 0 0 0 0 1 1) (testParticle 3 0 0 0 1 1)
      (BodyRef.particle 0) (BodyRef.particle 1)).1 (by with_unfolding_all decide)
  · exact (claim5_circle_circle_spec (testParticle 0 0 0 0 1 0) (testParticle 1 0 0 0 1 0)
      (BodyRef.particle 0) (BodyRef.particle 1)).2.1 (by with_unfolding_all decide)
  · exact ((claim5_circle_circle_spec (testParticle 0 0 0 0 1 1) (testParticle 0 0 0 0 1 1)
      (BodyRef.particle 0) (BodyRef.particle 1)).2.2.1 (by with_unfolding_all decide)
      (by with_unfolding_all decide) (by with_unfolding_all decide)).trans
      (by with_unfolding_all decide)
  · exact ((claim5_circle_circle_spec (testParticle 0 0 0 0 1 1) (testParticle (3/2) 0 0 0 1 1)
      (BodyRef.particle 0) (BodyRef.particle 1)).2.2.2 (3/2) (by norm_num)
      (by with_unfolding_all decide) (by with_unfolding_all decide)
      (by with_unfolding_all decide) (by with_unfolding_all decide)).trans
      (by with_unfolding_all decide)

/-- C6 (amended).  The circle container emits no contact for an off
centre particle confined to the interior, emits the single outward
contact with penetration distance plus radius minus container radius
when the boundary is violated, and for a particle within epsilon of the
centre always emits the fixed plus X normal contact with penetration
container radius minus particle radius, even when the particle fits
inside.  The distance is pinned by the exactness hypothesis on the
square root. -/
theorem claim6_circle_container_spec (center : Vec2) (R : ℚ) (p : Particle) (ref : BodyRef) :
    (∀ d : ℚ, 0 ≤ d → d * d = (p.position - center).length_squared →
      EPSILON ≤ d → d + p.radius ≤ R →
      generateContacts (Container.circle center R) p ref = []) ∧
    (∀ d : ℚ, 0 ≤ d → d * d = (p.position - center).length_squared →
      EPSILON ≤ d → R < d + p.radius →
      generateContacts (Container.circle center R) p ref =
        [{ a := ref, b := BodyRef.staticBody
           normal := (p.position - center) / d
           penetration := d + p.radius - R
           contact_points := [center + ((p.position - center) / d) * (R - p.radius)] }]) ∧
    (∀ d : ℚ, 0 ≤ d → d * d = (p.position - center).length_squared →
      d < EPSILON →
      generateContacts (Container.circle center R) p ref =
        [{ a := ref, b := BodyRef.staticBody
           normal := ⟨1, 0⟩
           penetration := R - p.radius
           contact_points := [center + (⟨1, 0⟩ : Vec2) * (R - p.radius)] }]) := by
  refine ⟨?_, ?_, ?_⟩
  · intro d hd0 hdd h1 h2
    have hs : Vec2.len (p.position - center) = d := by
      rw [Vec2.len, ← hdd, sqrtQ_mul_self d hd0]
    simp [generateContacts, hs, not_lt.mpr h1, h2]
  · intro d hd0 hdd h1 h2
    have hs : Vec2.len (p.position - center) = d := by
      rw [Vec2.len, ← hdd, sqrtQ_mul_self d hd0]
    simp [generateContacts, hs, not_lt.mpr h1, not_le.mpr h2]
  · intro d hd0 hdd h1
    have hs : Vec2.len (p.position - center) = d := by
      rw [Vec2.len, ← hdd, sqrtQ_mul_self d hd0]
    simp [generateContacts, hs, h1]

/-- Counterexample to C6 as stated: a particle of radius one exactly at
the centre of a container of radius five is confined to the interior,
distance plus radius is one and does not exceed five, yet
generate_contacts emits a contact (with penetration four), so the
claimed equivalence and the no contact guarantee for interior particles
both fail. -/
theorem claim6_counterexample :
    Vec2.len ((testParticle 0 0 0 0 1 1).position - (⟨0, 0⟩ : Vec2)) +
        (testParticle 0 0 0 0 1 1).radius ≤ 5 ∧
    generateContacts (Container.circle ⟨0, 0⟩ 5) (testParticle 0 0 0 0 1 1)
        (BodyRef.particle 0) =
      [{ a := BodyRef.particle 0, b := BodyRef.staticBody, normal := ⟨1, 0⟩,
         penetration := 4, contact_points := [⟨4, 0⟩] }] ∧
    ([{ a := BodyRef.particle 0, b := BodyRef.staticBody, normal := ⟨1, 0⟩,
        penetration := 4, contact_points := [⟨4, 0⟩] }] : List Contact) ≠ [] := by
  refine ⟨by with_unfolding_all decide, by with_unfolding_all decide, by decide⟩

/-- Witness for C6 at concrete inputs: an interior particle at distance
two, a violating particle at distance nine halves and a particle at the
exact centre. -/
theorem claim6_witness :
    (generateContacts (Container.circle ⟨0, 0⟩ 5) (testParticle 2 0 0 0 1 1)
        (BodyRef.particle 0) = []) ∧
    (generateContacts (Container.circle ⟨0, 0⟩ 5) (testParticle (9/2) 0 0 0 1 1)
        (BodyRef.particle 0) =
      [{ a := BodyRef.particle 0, b := BodyRef.staticBody, normal := ⟨1, 0⟩,
         penetration := 1/2, contact_points := [⟨4, 0⟩] }]) ∧
    (generateContacts (Container.circle ⟨0, 0⟩ 3) (testParticle 0 0 0 0 1 1)
        (BodyRef.particle 0) =
      [{ a := BodyRef.particle 0, b := BodyRef.staticBody, normal := ⟨1, 0⟩,
         penetration := 2, contact_points := [⟨2, 0⟩] }]) := by
  refine ⟨?_, ?_, ?_⟩
  · exact (claim6_circle_container_spec ⟨0, 0⟩ 5 (testParticle 2 0 0 0 1 1)
      (BodyRef.particle 0)).1 2 (by norm_num) (by with_unfolding_all decide)
      (by with_unfolding_all decide) (by with_unfolding_all decide)
  · exact ((claim6_circle_container_spec ⟨0, 0⟩ 5 (testParticle (9/2) 0 0 0 1 1)
      (BodyRef.particle 0)).2.1 (9/2) (by norm_num) (by with_unfolding_all decide)
      (by with_unfolding_all decide) (by with_unfolding_all decide)).trans
      (by with_unfolding_all decide)
  · exact ((claim6_circle_container_spec ⟨0, 0⟩ 3 (testParticle 0 0 0 0 1 1)
      (BodyRef.particle 0)).2.2 0 (by norm_num) (by with_unfolding_all decide)
      (by with_unfolding_all decide)).trans (by with_unfolding_all decide)

theorem vec2_add_x (a b : Vec2) : (a + b).x = a.x + b.x := rfl

theorem vec2_add_y (a b : Vec2) : (a + b).y = a.y + b.y := rfl

theorem vec2_sub_x (a b : Vec2) : (a - b).x = a.x - b.x := rfl

theorem vec2_sub_y (a b : Vec2) : (a - b).y = a.y - b.y := rfl

theorem vec2_smul_x (a : Vec2) (s : ℚ) : (a * s).x = a.x * s := rfl

theorem vec2_smul_y (a : Vec2) (s : ℚ) : (a * s).y = a.y * s := rfl

theorem vec2_ext (a b : Vec2) (hx : a.x = b.x) (hy : a.y = b.y) : a = b := by
  cases a; cases b; simp_all

/-- An out of range read yields the placeholder object. -/
theorem storeGet_out (s : Store) (pid : Nat) (h : s.length ≤ pid) :
    storeGet s pid = defaultParticle := by
  induction s generalizing pid with
  | nil => simp [storeGet]
  | cons x xs ih =>
      cases pid with
      | zero => simp at h
      | succ pid =>
          have := ih pid (by simpa using h)
          simpa [storeGet] using this

/-- Waking a body never changes the heap size. -/
theorem wakeBody_length (s : Store) (b : BodyRef) :
    (wakeBody s b).length = s.length := by
  cases b with
  | particle q =>
      by_cases hg : (storeGet s q).sleeping ∧ 0 < (storeGet s q).inv_mass
      · simp [wakeBody, hg, storeSet_length]
      · simp [wakeBody, hg]
  | staticBody => rfl

/-- Waking a body touches at most the sleeping flag and the sleep timer
of any object: every other field reads back unchanged. -/
theorem wakeBody_fields (s : Store) (b : BodyRef) (pid : Nat) :
    (storeGet (wakeBody s b) pid).position = (storeGet s pid).position ∧
    (storeGet (wakeBody s b) pid).velocity = (storeGet s pid).velocity ∧
    (storeGet (wakeBody s b) pid).inv_mass = (storeGet s pid).inv_mass ∧
    (storeGet (wakeBody s b) pid).restitution = (storeGet s pid).restitution ∧
    (storeGet (wakeBody s b) pid).friction = (storeGet s pid).friction ∧
    (storeGet (wakeBody s b) pid).alive = (storeGet s pid).alive := by
  cases b with
  | staticBody => exact ⟨rfl, rfl, rfl, rfl, rfl, rfl⟩
  | particle q =>
      by_cases hg : (storeGet s q).sleeping ∧ 0 < (storeGet s q).inv_mass
      · by_cases hq : q < s.length
        · by_cases hpq : pid = q
          · subst hpq
            simp [wakeBody, hg, storeGet_storeSet_eq s pid _ hq]
          · simp [wakeBody, hg, storeGet_storeSet_ne s pid q _ hpq]
        · simp [wakeBody, hg, storeSet, set_of_ge s q _ (not_lt.mp hq)]
      · simp [wakeBody, hg]

/-- Reduction of resolve_contact to its main branch when no early out
fires: wake, normal impulse, then the friction pass. -/
theorem resolve_contact_main (s : Store) (c : Contact)
    (h1 : bodyAlive s c.a = true) (h2 : bodyAlive s c.b = true)
    (h3 : ¬ (bodyInvMass s c.a = 0 ∧ bodyInvMass s c.b = 0))
    (h4 : ¬ 0 < Vec2.dot (bodyVelocity s c.b - bodyVelocity s c.a) c.normal) :
    resolve_contact s c =
      (let vel := Vec2.dot (bodyVelocity s c.b - bodyVelocity s c.a) c.normal
       let s1 := if WAKE_THRESHOLD_VELOCITY < |vel| ∨ WAKE_THRESHOLD_PENETRATION < c.penetration
                 then wakeBody (wakeBody s c.a) c.b else s
       let restitution := if |vel| < RESTING_VELOCITY_THRESHOLD then 0
                 else min (bodyRestitution s1 c.a) (bodyRestitution s1 c.b)
       let jmag := (-(1 + restitution) * vel) / (bodyInvMass s c.a + bodyInvMass s c.b)
       frictionPass (applyImpulse s1 c (c.normal * jmag)) c
         (bodyInvMass s c.a) (bodyInvMass s c.b) jmag) := by
  unfold resolve_contact
  rw [if_neg (by simp [h1, h2]), if_neg h3, if_neg h4]

/-- When both bodies of a contact are distinct dynamic particles, an
impulse updates exactly their two velocities, opposite in sign and
scaled by the inverse masses. -/
theorem applyImpulse_two (s : Store) (c : Contact) (imp : Vec2) (i j : Nat)
    (hca : c.a = BodyRef.particle i) (hcb : c.b = BodyRef.particle j)
    (hij : i ≠ j) (hia : 0 < (storeGet s i).inv_mass) (hib : 0 < (storeGet s j).inv_mass) :
    applyImpulse s c imp =
      storeSet (storeSet s i
          { storeGet s i with
              velocity := (storeGet s i).velocity - imp * (storeGet s i).inv_mass })
        j { storeGet s j with
              velocity := (storeGet s j).velocity + imp * (storeGet s j).inv_mass } := by
  unfold applyImpulse
  rw [hca, hcb]
  simp only [bodyInvMass, bodyModify]
  rw [if_pos hia, if_pos hib]
  rw [storeGet_storeSet_ne s j i _ (Ne.symm hij)]

/-- The friction pass returns the store untouched when the tangential
relative speed is negligible. -/
theorem frictionPass_small_tangent (s : Store) (c : Contact) (ia ib jj : ℚ)
    (h : ((bodyVelocity s c.b - bodyVelocity s c.a) -
        c.normal * (Vec2.dot (bodyVelocity s c.b - bodyVelocity s c.a) c.normal)).length_squared <
      EPSILON * EPSILON) :
    frictionPass s c ia ib jj = s := by
  unfold frictionPass
  rw [if_pos h]

/-- C7 (amended).  Two equal mass particles approaching head on with
restitution one and zero friction exchange their velocities exactly
under resolve_contact, provided the relative normal approach speed is
at least the resting velocity threshold of one; below that threshold
the solver forces restitution to zero, which the counterexample
exhibits.  Head on means both velocities are multiples of the unit
contact normal. -/
theorem claim7_elastic_exchange (s : Store) (i j : Nat) (c : Contact) (n : Vec2) (va vb m : ℚ)
    (hij : i ≠ j) (hi : i < s.length) (hj : j < s.length)
    (hca : c.a = BodyRef.particle i) (hcb : c.b = BodyRef.particle j)
    (hn : c.normal = n) (hunit : n.x * n.x + n.y * n.y = 1)
    (haliveA : (storeGet s i).alive = true) (haliveB : (storeGet s j).alive = true)
    (hima : (storeGet s i).inv_mass = m) (himb : (storeGet s j).inv_mass = m) (hm : 0 < m)
    (hra : (storeGet s i).restitution = 1) (hrb : (storeGet s j).restitution = 1)
    (hfa : (storeGet s i).friction = 0) (hfb : (storeGet s j).friction = 0)
    (hva : (storeGet s i).velocity = n * va) (hvb : (storeGet s j).velocity = n * vb)
    (happroach : vb - va < 0) (hfast : 1 ≤ |vb - va|) :
    (storeGet (resolve_contact s c) i).velocity = n * vb ∧
    (storeGet (resolve_contact s c) j).velocity = n * va := by
  have hdot : Vec2.dot (bodyVelocity s c.b - bodyVelocity s c.a) c.normal = vb - va := by
    rw [hca, hcb, hn]
    simp only [bodyVelocity, hva, hvb, Vec2.dot, vec2_sub_x, vec2_sub_y,
      vec2_smul_x, vec2_smul_y]
    linear_combination (vb - va) * hunit
  have hmain := resolve_contact_main s c
    (by rw [hca]; simpa [bodyAlive] using haliveA)
    (by rw [hcb]; simpa [bodyAlive] using haliveB)
    (by rw [hca, hcb]; simp only [bodyInvMass]; rw [hima, himb]; intro hc; exact absurd hc.1 (ne_of_gt hm))
    (by rw [hdot]; exact not_lt.mpr (le_of_lt happroach))
  rw [hdot] at hmain
  simp only at hmain
  -- the post wake store and its unchanged fields
  set s1 := if WAKE_THRESHOLD_VELOCITY < |vb - va| ∨ WAKE_THRESHOLD_PENETRATION < c.penetration
    then wakeBody (wakeBody s c.a) c.b else s with hs1def
  have hw : ∀ pid : Nat,
      (storeGet s1 pid).velocity = (storeGet s pid).velocity ∧
      (storeGet s1 pid).inv_mass = (storeGet s pid).inv_mass ∧
      (storeGet s1 pid).restitution = (storeGet s pid).restitution := by
    intro pid
    by_cases hsg : WAKE_THRESHOLD_VELOCITY < |vb - va| ∨ WAKE_THRESHOLD_PENETRATION < c.penetration
    · rw [hs1def, if_pos hsg]
      have ho := wakeBody_fields (wakeBody s c.a) c.b pid
      have hinn := wakeBody_fields s c.a pid
      exact ⟨ho.2.1.trans hinn.2.1, (ho.2.2.1).trans hinn.2.2.1,
        (ho.2.2.2.1).trans hinn.2.2.2.1⟩
    · rw [hs1def, if_neg hsg]
      exact ⟨rfl, rfl, rfl⟩
  have hlen1 : s1.length = s.length := by
    by_cases hsg : WAKE_THRESHOLD_VELOCITY < |vb - va| ∨ WAKE_THRESHOLD_PENETRATION < c.penetration
    · rw [hs1def, if_pos hsg, wakeBody_length, wakeBody_length]
    · rw [hs1def, if_neg hsg]
  -- the restitution stays one above the resting threshold
  have hrest : (if |vb - va| < RESTING_VELOCITY_THRESHOLD then (0 : ℚ)
      else min (bodyRestitution s1 c.a) (bodyRestitution s1 c.b)) = 1 := by
    rw [if_neg (not_lt.mpr (by simpa [RESTING_VELOCITY_THRESHOLD] using hfast))]
    rw [hca, hcb]
    show min (storeGet s1 i).restitution (storeGet s1 j).restitution = 1
    rw [(hw i).2.2, (hw j).2.2, hra, hrb]
    simp
  have hinva : bodyInvMass s c.a = m := by rw [hca]; simpa [bodyInvMass] using hima
  have hinvb : bodyInvMass s c.b = m := by rw [hcb]; simpa [bodyInvMass] using himb
  rw [hinva, hinvb, hrest] at hmain
  set jm := (-(1 + 1) * (vb - va)) / (m + m) with hjmdef
  -- characterize the store after the normal impulse
  have hia1 : 0 < (storeGet s1 i).inv_mass := by rw [(hw i).2.1, hima]; exact hm
  have hib1 : 0 < (storeGet s1 j).inv_mass := by rw [(hw j).2.1, himb]; exact hm
  have himp := applyImpulse_two s1 c (c.normal * jm) i j hca hcb hij hia1 hib1
  rw [himp] at hmain
  set pa2 : Particle := { storeGet s1 i with
      velocity := (storeGet s1 i).velocity - (c.normal * jm) * (storeGet s1 i).inv_mass } with hpa2
  set pb2 : Particle := { storeGet s1 j with
      velocity := (storeGet s1 j).velocity + (c.normal * jm) * (storeGet s1 j).inv_mass } with hpb2
  set s2 := storeSet (storeSet s1 i pa2) j pb2 with hs2def
  have hgi : storeGet s2 i = pa2 := by
    rw [hs2def, storeGet_storeSet_ne _ i j _ hij,
      storeGet_storeSet_eq _ i _ (by rw [hlen1]; exact hi)]
  have hgj : storeGet s2 j = pb2 := by
    rw [hs2def, storeGet_storeSet_eq _ j _ (by rw [storeSet_length, hlen1]; exact hj)]
  have hvel_i : (storeGet s2 i).velocity = n * vb := by
    rw [hgi, hpa2]
    show (storeGet s1 i).velocity - (c.normal * jm) * (storeGet s1 i).inv_mass = n * vb
    rw [(hw i).2.1, hima, (hw i).1, hva, hn]
    refine vec2_ext _ _ ?_ ?_ <;>
      simp only [vec2_sub_x, vec2_sub_y, vec2_smul_x, vec2_smul_y, hjmdef] <;>
      field_simp <;> ring
  have hvel_j : (storeGet s2 j).velocity = n * va := by
    rw [hgj, hpb2]
    show (storeGet s1 j).velocity + (c.normal * jm) * (storeGet s1 j).inv_mass = n * va
    rw [(hw j).2.1, himb, (hw j).1, hvb, hn]
    refine vec2_ext _ _ ?_ ?_ <;>
      simp only [vec2_add_x, vec2_add_y, vec2_smul_x, vec2_smul_y, hjmdef] <;>
      field_simp <;> ring
  -- the friction pass does nothing: the relative velocity is normal
  have hfric : frictionPass s2 c m m jm = s2 := by
    apply frictionPass_small_tangent
    have hrv : bodyVelocity s2 c.b - bodyVelocity s2 c.a = n * (va - vb) := by
      rw [hca, hcb]
      show (storeGet s2 j).velocity - (storeGet s2 i).velocity = n * (va - vb)
      rw [hvel_i, hvel_j]
      refine vec2_ext _ _ ?_ ?_ <;>
        simp only [vec2_sub_x, vec2_sub_y, vec2_smul_x, vec2_smul_y] <;> ring
    rw [hrv, hn]
    have hz : n * (va - vb) - n * Vec2.dot (n * (va - vb)) n = Vec2.zero := by
      refine vec2_ext _ _ ?_ ?_
      · simp only [Vec2.dot, vec2_sub_x, vec2_smul_x, vec2_smul_y, Vec2.zero]
        linear_combination (-((va - vb) * n.x)) * hunit
      · simp only [Vec2.dot, vec2_sub_y, vec2_smul_x, vec2_smul_y, Vec2.zero]
        linear_combination (-((va - vb) * n.y)) * hunit
    rw [hz]
    norm_num [Vec2.length_squared, Vec2.zero, EPSILON]
  rw [hmain, hfric]
  exact ⟨hvel_i, hvel_j⟩

/-- Counterexample to C7 as stated: equal masses, head on approach at
relative speed one half, restitution one, friction zero.  The claimed
exchange would leave the particles with velocities minus and plus one
quarter; the solver zeroes the restitution below the resting threshold
of one and both particles end at rest, a quarter away from the claimed
value. -/
theorem claim7_counterexample :
    (storeGet (resolve_contact
        [testParticle 0 0 (1/4) 0 1 1 1 0, testParticle (19/10) 0 (-(1/4)) 0 1 1 1 0]
        { a := BodyRef.particle 0
          b := BodyRef.particle 1
          normal := ⟨1, 0⟩
          penetration := 1/10
          contact_points := [] }) 0).velocity = ⟨0, 0⟩ ∧
    (storeGet (resolve_contact
        [testParticle 0 0 (1/4) 0 1 1 1 0, testParticle (19/10) 0 (-(1/4)) 0 1 1 1 0]
        { a := BodyRef.particle 0
          b := BodyRef.particle 1
          normal := ⟨1, 0⟩
          penetration := 1/10
          contact_points := [] }) 1).velocity = ⟨0, 0⟩ ∧
    ((⟨0, 0⟩ : Vec2) ≠ ⟨-(1/4), 0⟩) ∧
    ((⟨0, 0⟩ : Vec2) ≠ ⟨1/4, 0⟩) := by
  exact ⟨by with_unfolding_all decide, by with_unfolding_all decide,
    by with_unfolding_all decide, by with_unfolding_all decide⟩

/-- Witness for C7 at a concrete fast head on collision: approach speed
three halves, above the resting threshold, and the velocities swap. -/
theorem claim7_witness :
    (storeGet (resolve_contact
        [testParticle 0 0 (3/4) 0 1 1 1 0, testParticle (19/10) 0 (-(3/4)) 0 1 1 1 0]
        { a := BodyRef.particle 0
          b := BodyRef.particle 1
          normal := ⟨1, 0⟩
          penetration := 1/10
          contact_points := [] }) 0).velocity = ⟨-(3/4), 0⟩ ∧
    (storeGet (resolve_contact
        [testParticle 0 0 (3/4) 0 1 1 1 0, testParticle (19/10) 0 (-(3/4)) 0 1 1 1 0]
        { a := BodyRef.particle 0
          b := BodyRef.particle 1
          normal := ⟨1, 0⟩
          penetration := 1/10
          contact_points := [] }) 1).velocity = ⟨3/4, 0⟩ := by
  have h := claim7_elastic_exchange
    [testParticle 0 0 (3/4) 0 1 1 1 0, testParticle (19/10) 0 (-(3/4)) 0 1 1 1 0]
    0 1
    { a := BodyRef.particle 0
      b := BodyRef.particle 1
      normal := ⟨1, 0⟩
      penetration := 1/10
      contact_points := [] }
    ⟨1, 0⟩ (3/4) (-(3/4)) 1
    (by decide) (by decide) (by decide) rfl rfl rfl (by norm_num)
    (by with_unfolding_all decide) (by with_unfolding_all decide)
    (by with_unfolding_all decide) (by with_unfolding_all decide) (by norm_num)
    (by with_unfolding_all decide) (by with_unfolding_all decide)
    (by with_unfolding_all decide) (by with_unfolding_all decide)
    (by with_unfolding_all decide) (by with_unfolding_all decide)
    (by norm_num) (by rw [abs_of_nonpos] <;> norm_num)
  exact ⟨h.1.trans (by with_unfolding_all decide), h.2.trans (by with_unfolding_all decide)⟩

/-- C2 (amended).  Sleep transition and persistence: a live awake
dynamic particle whose post damping speed is below its sleep threshold
and whose sleep timer reaches three tenths of a second transitions to
sleeping with velocity, force and acceleration zeroed; a sleeping
particle is untouched by integration and skipped by force application.
Velocity however only stays zero until any contact is resolved against
the particle: the solver gates the wake, not the impulse, on collision
significance, so an insignificant collision (relative normal speed and
penetration both at most one tenth) changes the velocity of a particle
that stays asleep, which the counterexample exhibits. -/
theorem claim2_sleep_transition_and_persistence :
    (∀ (p : Particle) (dt : ℚ) (a0 : Vec2),
      p.alive = true → p.sleeping = false → ¬ p.inv_mass = 0 →
      p.acceleration = some a0 →
      (verletVelocity p a0 dt).length_squared < p.sleep_threshold * p.sleep_threshold →
      3/10 ≤ p.sleep_timer + dt →
      integrate_particle p dt =
        some { p with position := verletPosition p a0 dt, velocity := Vec2.zero,
                      force := Vec2.zero, acceleration := some Vec2.zero,
                      sleeping := true, sleep_timer := p.sleep_timer + dt }) ∧
    (∀ (p : Particle) (dt : ℚ), p.sleeping = true → integrate_particle p dt = some p) ∧
    (∀ (globals locals : List Force) (dt : ℚ) (s : Store) (pid : Nat),
      (storeGet s pid).sleeping = true → forcePhase globals locals dt s [pid] = s) := by
  refine ⟨?_, ?_, ?_⟩
  · intro p dt a0 halive hsleep hinv hacc hspeed htimer
    simp [integrate_particle, halive, hsleep, hinv, hacc, hspeed, htimer]
  · intro p dt hsleep
    by_cases halive : p.alive
    · simp [integrate_particle, halive, hsleep]
    · simp [integrate_particle, halive]
  · intro globals locals dt s pid hsleep
    simp [forcePhase, hsleep]

/-- Sleeping pile scene for the C2 counterexample: particle A at the
origin at rest (it falls asleep on the first step), particle B
approaching slowly from the left with a low sleep threshold of its own
so it stays awake. -/
def sleepSceneA : Particle := testParticle 0 0 0 0 1 1

def sleepSceneB : Particle :=
  testParticle (-(2017/1000)) 0 (1/25) 0 1 1 (2/5) (3/10) false (1/1000)

def sleepScene : ParticleSystem :=
  { mkParticleSystem with store := [sleepSceneA, sleepSceneB], particles := [0, 1] }

/-- A solver fixed point is preserved by any number of iterations. -/
theorem solverLoop_fixed (cs : List Contact) (ks : List DistanceConstraint)
    (dt : ℚ) (s : Store) (h : solverIteration cs ks dt s = s) :
    ∀ n : Nat, solverLoop n cs ks dt s = s := by
  intro n
  induction n with
  | zero => rfl
  | succ m ih =>
      show solverLoop m cs ks dt (solverIteration cs ks dt s) = s
      rw [h]
      exact ih

/-- State of the sleeping pile scene after its first step: particle A
asleep at rest with the timer at three tenths, particle B advanced to
minus two hundred one over one hundred, the grid rebuilt. -/
def sleepS1 : ParticleSystem :=
  { store := [{ position := ⟨0, 0⟩, velocity := ⟨0, 0⟩, radius := 1, mass := 1,
                friction := 3/10, restitution := 2/5, damping := 0,
                sleep_threshold := 1/20, alive := true, force := ⟨0, 0⟩,
                inv_mass := 1, sleeping := true, sleep_timer := 3/10,
                acceleration := some ⟨0, 0⟩ },
              { position := ⟨-(401/200), 0⟩, velocity := ⟨1/25, 0⟩, radius := 1, mass := 1,
                friction := 3/10, restitution := 2/5, damping := 0,
                sleep_threshold := 1/1000, alive := true, force := ⟨0, 0⟩,
                inv_mass := 1, sleeping := false, sleep_timer := 0,
                acceleration := some ⟨0, 0⟩ }]
    particles := [0, 1]
    global_forces := []
    local_forces := []
    paused := false
    broadphase := { cell_size := 20, inv_cell_size := 1/20,
                    cells := [((-1, -1), [0, 1]), ((-1, 0), [0, 1]),
                              ((0, -1), [0]), ((0, 0), [0])] }
    solver_iterations := 20
    containers := []
    constraints := [] }

/-- Store of the sleeping pile scene after the integration phase of the
second step: B has advanced into contact with penetration seven
thousandths. -/
def sleepT1 : Store :=
  [{ position := ⟨0, 0⟩, velocity := ⟨0, 0⟩, radius := 1, mass := 1,
     friction := 3/10, restitution := 2/5, damping := 0,
     sleep_threshold := 1/20, alive := true, force := ⟨0, 0⟩,
     inv_mass := 1, sleeping := true, sleep_timer := 3/10,
     acceleration := some ⟨0, 0⟩ },
   { position := ⟨-(1993/1000), 0⟩, velocity := ⟨1/25, 0⟩, radius := 1, mass := 1,
     friction := 3/10, restitution := 2/5, damping := 0,
     sleep_threshold := 1/1000, alive := true, force := ⟨0, 0⟩,
     inv_mass := 1, sleeping := false, sleep_timer := 0,
     acceleration := some ⟨0, 0⟩ }]

/-- Grid of the second step of the sleeping pile scene. -/
def sleepG2 : SpatialHashGrid :=
  { cell_size := 20, inv_cell_size := 1/20,
    cells := [((-1, -1), [0, 1]), ((-1, 0), [0, 1]), ((0, -1), [0]), ((0, 0), [0])] }

/-- The insignificant contact of the second step: penetration seven
thousandths and relative normal speed one twenty fifth, both below the
wake thresholds. -/
def sleepC : Contact :=
  { a := BodyRef.particle 0
    b := BodyRef.particle 1
    normal := ⟨-1, 0⟩
    penetration := 7/1000
    contact_points := [⟨-(1993/2000), 0⟩] }

/-- Store after the solver of the second step: the impulse moved the
still sleeping particle A to velocity one fiftieth. -/
def sleepT2 : Store :=
  [{ position := ⟨0, 0⟩, velocity := ⟨1/50, 0⟩, radius := 1, mass := 1,
     friction := 3/10, restitution := 2/5, damping := 0,
     sleep_threshold := 1/20, alive := true, force := ⟨0, 0⟩,
     inv_mass := 1, sleeping := true, sleep_timer := 3/10,
     acceleration := some ⟨0, 0⟩ },
   { position := ⟨-(1993/1000), 0⟩, velocity := ⟨1/50, 0⟩, radius := 1, mass := 1,
     friction := 3/10, restitution := 2/5, damping := 0,
     sleep_threshold := 1/1000, alive := true, force := ⟨0, 0⟩,
     inv_mass := 1, sleeping := false, sleep_timer := 0,
     acceleration := some ⟨0, 0⟩ }]

/-- System state of the sleeping pile scene after its second step. -/
def sleepS2 : ParticleSystem :=
  { sleepS1 with store := sleepT2, broadphase := sleepG2 }

set_option maxRecDepth 100000 in
/-- The first step of the sleeping pile scene, evaluated. -/
theorem sleepScene_step1 : sleepScene.step (3/10) = (true, sleepS1) := by
  with_unfolding_all decide

/-- One unfolding of the solver loop. -/
theorem solverLoop_succ (n : Nat) (cs : List Contact) (ks : List DistanceConstraint)
    (dt : ℚ) (s : Store) :
    solverLoop (Nat.succ n) cs ks dt s = solverLoop n cs ks dt (solverIteration cs ks dt s) := rfl

set_option maxRecDepth 200000 in
set_option maxHeartbeats 1600000 in
/-- The second step of the sleeping pile scene, assembled phase by
phase: the force phase is empty, integration advances B into the
insignificant contact, the first solver iteration equalises the two
velocities at one fiftieth while A stays asleep, the remaining nineteen
iterations and the positional correction are fixed points. -/
theorem sleepScene_step2 : sleepS1.step (3/10) = (true, sleepS2) := by
  have hforce : forcePhase sleepS1.global_forces sleepS1.local_forces (3/10)
      sleepS1.store sleepS1.particles = sleepS1.store := by with_unfolding_all decide
  have hint : integratePhase (3/10) sleepS1.store sleepS1.particles = (true, sleepT1) := by
    with_unfolding_all decide
  have hgrid : sleepS1.particles.foldl
      (fun g pid =>
        let p := storeGet sleepT1 pid
        if p.alive then gridInsert g pid p else g)
      { sleepS1.broadphase with cells := [] } = sleepG2 := by with_unfolding_all decide
  have hpairs : computePairs sleepG2 = [(0, 1)] := by with_unfolding_all decide
  have hnarrow : narrowphase sleepT1 [(0, 1)] = [sleepC] := by with_unfolding_all decide
  have hcont : containerPhase sleepT1 sleepS1.containers sleepS1.particles = [] := by
    with_unfolding_all decide
  have hiter : solverIteration [sleepC] sleepS1.constraints (3/10) sleepT1 = sleepT2 := by
    with_unfolding_all decide
  have hfix : solverIteration [sleepC] sleepS1.constraints (3/10) sleepT2 = sleepT2 := by
    with_unfolding_all decide
  have hloop : solverLoop sleepS1.solver_iterations [sleepC] sleepS1.constraints (3/10) sleepT1
      = sleepT2 := by
    have hn : sleepS1.solver_iterations = Nat.succ 19 := by with_unfolding_all decide
    rw [hn, solverLoop_succ, hiter]
    exact solverLoop_fixed _ _ _ _ hfix 19
  have hpos : List.foldl positional_correction sleepT2 [sleepC] = sleepT2 := by
    with_unfolding_all decide
  have hdead : ({ sleepS1 with store := sleepT2, broadphase := sleepG2 }
      : ParticleSystem).remove_dead = sleepS2 := by with_unfolding_all decide
  unfold ParticleSystem.step
  rw [if_neg (by decide)]
  rw [hforce]
  simp only []
  rw [hint]
  simp only []
  rw [hgrid, hpairs, hnarrow, hcont]
  simp only [List.append_nil]
  rw [hloop, hpos, hdead]

/-- Counterexample to C2 as stated.  Particle A rests long enough to
fall asleep during the first step, ending it sleeping with exactly zero
velocity.  The following step resolves a contact with penetration seven
thousandths and relative normal speed one twenty fifth, both below the
wake thresholds, so the collision is not significant and A stays
asleep, no external wake occurs, yet the impulse leaves the still
sleeping A with velocity one fiftieth instead of zero. -/
theorem claim2_counterexample :
    (storeGet ((sleepScene.step (3/10)).2).store 0).sleeping = true ∧
    (storeGet ((sleepScene.step (3/10)).2).store 0).velocity = ⟨0, 0⟩ ∧
    (storeGet (((sleepScene.step (3/10)).2.step (3/10)).2).store 0).sleeping = true ∧
    (storeGet (((sleepScene.step (3/10)).2.step (3/10)).2).store 0).velocity = ⟨1/50, 0⟩ ∧
    ((⟨1/50, 0⟩ : Vec2) ≠ ⟨0, 0⟩) := by
  rw [sleepScene_step1]
  show (storeGet sleepS1.store 0).sleeping = true ∧
    (storeGet sleepS1.store 0).velocity = ⟨0, 0⟩ ∧
    (storeGet ((sleepS1.step (3/10)).2).store 0).sleeping = true ∧
    (storeGet ((sleepS1.step (3/10)).2).store 0).velocity = ⟨1/50, 0⟩ ∧
    ((⟨1/50, 0⟩ : Vec2) ≠ ⟨0, 0⟩)
  rw [sleepScene_step2]
  exact ⟨by with_unfolding_all decide, by with_unfolding_all decide,
    by with_unfolding_all decide, by with_unfolding_all decide,
    by with_unfolding_all decide⟩

/-- Witness for C2: the transition fires on a resting particle with
timestep three tenths, and a sleeping particle is untouched by
integration and skipped by a force phase carrying gravity and drag. -/
theorem claim2_witness :
    (integrate_particle (testParticle 0 0 0 0 1 1) (3/10) =
      some { testParticle 0 0 0 0 1 1 with
               position := verletPosition (testParticle 0 0 0 0 1 1) Vec2.zero (3/10)
               velocity := Vec2.zero
               force := Vec2.zero
               acceleration := some Vec2.zero
               sleeping := true
               sleep_timer := (testParticle 0 0 0 0 1 1).sleep_timer + 3/10 }) ∧
    (integrate_particle (testParticle 0 0 0 0 1 1 (2/5) (3/10) true) (1/60) =
      some (testParticle 0 0 0 0 1 1 (2/5) (3/10) true)) ∧
    (forcePhase [Force.gravity ⟨0, 800⟩] [Force.linearDrag 1] (1/60)
      [testParticle 0 0 0 0 1 1 (2/5) (3/10) true] [0] =
      [testParticle 0 0 0 0 1 1 (2/5) (3/10) true]) := by
  refine ⟨?_, ?_, ?_⟩
  · exact claim2_sleep_transition_and_persistence.1 (testParticle 0 0 0 0 1 1) (3/10)
      Vec2.zero (by with_unfolding_all decide) (by with_unfolding_all decide)
      (by with_unfolding_all decide) (by with_unfolding_all decide)
      (by with_unfolding_all decide) (by with_unfolding_all decide)
  · exact claim2_sleep_transition_and_persistence.2.1
      (testParticle 0 0 0 0 1 1 (2/5) (3/10) true) (1/60) (by with_unfolding_all decide)
  · exact claim2_sleep_transition_and_persistence.2.2 [Force.gravity ⟨0, 800⟩]
      [Force.linearDrag 1] (1/60) [testParticle 0 0 0 0 1 1 (2/5) (3/10) true] 0
      (by with_unfolding_all decide)

/-- The frozen state of a static particle: zero inverse mass and pinned
position and velocity. -/
def staticFrozen (x v : Vec2) (pid : Nat) (s : Store) : Prop :=
  (storeGet s pid).inv_mass = 0 ∧ (storeGet s pid).position = x ∧
    (storeGet s pid).velocity = v

/-- Every force of the hierarchy writes only into the force
accumulator: position, velocity and inverse mass are untouched. -/
theorem applyForce_fields (f : Force) (p : Particle) (dt : ℚ) :
    (applyForce f p dt).position = p.position ∧
    (applyForce f p dt).velocity = p.velocity ∧
    (applyForce f p dt).inv_mass = p.inv_mass := by
  cases f <;> simp only [applyForce] <;> (try split_ifs) <;> simp

/-- Folding any list of forces over a particle keeps position, velocity
and inverse mass. -/
theorem forceFold_fields (fs : List Force) (p : Particle) (dt : ℚ) :
    ((fs.foldl (fun p f => applyForce f p dt) p).position = p.position ∧
     (fs.foldl (fun p f => applyForce f p dt) p).velocity = p.velocity ∧
     (fs.foldl (fun p f => applyForce f p dt) p).inv_mass = p.inv_mass) := by
  induction fs generalizing p with
  | nil => exact ⟨rfl, rfl, rfl⟩
  | cons f fs ih =>
      have h1 := applyForce_fields f p dt
      have h2 := ih (applyForce f p dt)
      exact ⟨h2.1.trans h1.1, h2.2.1.trans h1.2.1, h2.2.2.trans h1.2.2⟩

/-- The force phase keeps position, velocity and inverse mass of every
object in the heap. -/
theorem forcePhase_fields (globals locals : List Force) (dt : ℚ)
    (pids : List Nat) (s : Store) (pid : Nat) :
    (storeGet (forcePhase globals locals dt s pids) pid).position =
      (storeGet s pid).position ∧
    (storeGet (forcePhase globals locals dt s pids) pid).velocity =
      (storeGet s pid).velocity ∧
    (storeGet (forcePhase globals locals dt s pids) pid).inv_mass =
      (storeGet s pid).inv_mass := by
  induction pids generalizing s with
  | nil => exact ⟨rfl, rfl, rfl⟩
  | cons q rest ih =>
      have hstep : forcePhase globals locals dt s (q :: rest) =
          forcePhase globals locals dt
            (let p := storeGet s q
             if ¬ p.alive ∨ p.sleeping then s
             else
               let p := globals.foldl (fun p f => applyForce f p dt) p
               let p := locals.foldl (fun p f => applyForce f p dt) p
               storeSet s q p) rest := rfl
      rw [hstep]
      by_cases hskip : ¬ (storeGet s q).alive ∨ (storeGet s q).sleeping
      · simp only [hskip, if_true]
        exact ih s
      · simp only [hskip, if_false]
        set p2 := (locals.foldl (fun p f => applyForce f p dt)
          (globals.foldl (fun p f => applyForce f p dt) (storeGet s q)))
        have hp2 : p2.position = (storeGet s q).position ∧
            p2.velocity = (storeGet s q).velocity ∧
            p2.inv_mass = (storeGet s q).inv_mass := by
          have hg := forceFold_fields globals (storeGet s q) dt
          have hl := forceFold_fields locals
            (globals.foldl (fun p f => applyForce f p dt) (storeGet s q)) dt
          exact ⟨hl.1.trans hg.1, hl.2.1.trans hg.2.1, hl.2.2.trans hg.2.2⟩
        by_cases hq : q < s.length
        · have hrest := ih (storeSet s q p2)
          by_cases hpq : pid = q
          · subst hpq
            exact ⟨by rw [hrest.1, storeGet_storeSet_eq s pid p2 hq, hp2.1],
                   by rw [hrest.2.1, storeGet_storeSet_eq s pid p2 hq, hp2.2.1],
                   by rw [hrest.2.2, storeGet_storeSet_eq s pid p2 hq, hp2.2.2]⟩
          · exact ⟨by rw [hrest.1, storeGet_storeSet_ne s pid q p2 hpq],
                   by rw [hrest.2.1, storeGet_storeSet_ne s pid q p2 hpq],
                   by rw [hrest.2.2, storeGet_storeSet_ne s pid q p2 hpq]⟩
        · have hset : storeSet s q p2 = s := by
            rw [storeSet, set_of_ge s q p2 (not_lt.mp hq)]
          rw [hset]
          exact ih s

/-- Integrating a static particle clears at most the force
accumulator. -/
theorem integrate_static (p : Particle) (dt : ℚ) (h : p.inv_mass = 0) :
    ∃ p2, integrate_particle p dt = some p2 ∧ p2.position = p.position ∧
      p2.velocity = p.velocity ∧ p2.inv_mass = 0 := by
  by_cases ha : p.alive
  · by_cases hs : p.sleeping
    · exact ⟨p, by simp [integrate_particle, ha, hs], rfl, rfl, h⟩
    · exact ⟨{ p with force := Vec2.zero }, by simp [integrate_particle, ha, hs, h], rfl, rfl, h⟩
  · exact ⟨p, by simp [integrate_particle, ha], rfl, rfl, h⟩

/-- The integration phase leaves a static particle pinned, whether or
not the loop aborts on a missing acceleration attribute. -/
theorem integratePhase_staticFrozen (dt : ℚ) (pids : List Nat) (x v : Vec2) (pid : Nat) :
    ∀ s : Store, staticFrozen x v pid s →
      staticFrozen x v pid (integratePhase dt s pids).2 := by
  induction pids with
  | nil => exact fun s h => h
  | cons q rest ih =>
      intro s h
      show staticFrozen x v pid
        (match integrate_particle (storeGet s q) dt with
         | none => (false, s)
         | some p => integratePhase dt (storeSet s q p) rest).2
      cases hint : integrate_particle (storeGet s q) dt with
      | none => exact h
      | some p2 =>
          apply ih
          by_cases hq : q < s.length
          · by_cases hpq : pid = q
            · subst hpq
              obtain ⟨p3, hp3, hpos, hvel, hinv⟩ := integrate_static (storeGet s pid) dt h.1
              rw [hint] at hp3
              have hp23 : p2 = p3 := Option.some_inj.mp hp3
              subst hp23
              refine ⟨?_, ?_, ?_⟩
              · rw [storeGet_storeSet_eq s pid p2 hq, hinv]
              · rw [storeGet_storeSet_eq s pid p2 hq, hpos, h.2.1]
              · rw [storeGet_storeSet_eq s pid p2 hq, hvel, h.2.2]
            · refine ⟨?_, ?_, ?_⟩
              · rw [storeGet_storeSet_ne s pid q p2 hpq]; exact h.1
              · rw [storeGet_storeSet_ne s pid q p2 hpq]; exact h.2.1
              · rw [storeGet_storeSet_ne s pid q p2 hpq]; exact h.2.2
          · have hset : storeSet s q p2 = s := by
              rw [storeSet, set_of_ge s q p2 (not_lt.mp hq)]
            rw [hset]
            exact h

/-- Waking bodies never moves a static particle. -/
theorem wakeBody_staticFrozen (s : Store) (b : BodyRef) (x v : Vec2) (pid : Nat)
    (h : staticFrozen x v pid s) : staticFrozen x v pid (wakeBody s b) := by
  have hf := wakeBody_fields s b pid
  exact ⟨hf.2.2.1.trans h.1, hf.1.trans h.2.1, hf.2.1.trans h.2.2⟩

/-- Modifying another body in place leaves a static particle pinned. -/
theorem bodyModify_staticFrozen (s : Store) (b : BodyRef) (f : Particle → Particle)
    (x v : Vec2) (pid : Nat) (h : staticFrozen x v pid s)
    (hne : b ≠ BodyRef.particle pid) : staticFrozen x v pid (bodyModify s b f) := by
  cases b with
  | staticBody => exact h
  | particle q =>
      have hpq : pid ≠ q := fun hc => hne (by rw [hc])
      exact ⟨by rw [bodyModify, storeGet_storeSet_ne s pid q _ hpq]; exact h.1,
             by rw [bodyModify, storeGet_storeSet_ne s pid q _ hpq]; exact h.2.1,
             by rw [bodyModify, storeGet_storeSet_ne s pid q _ hpq]; exact h.2.2⟩

/-- An impulse never moves a static particle: the velocity writes are
guarded by positive inverse mass. -/
theorem applyImpulse_staticFrozen (s : Store) (c : Contact) (imp : Vec2)
    (x v : Vec2) (pid : Nat) (h : staticFrozen x v pid s) :
    staticFrozen x v pid (applyImpulse s c imp) := by
  unfold applyImpulse
  simp only []
  have step1 : staticFrozen x v pid
      (if 0 < bodyInvMass s c.a then
        bodyModify s c.a (fun p => { p with velocity := p.velocity - imp * bodyInvMass s c.a })
      else s) := by
    by_cases h1 : 0 < bodyInvMass s c.a
    · rw [if_pos h1]
      refine bodyModify_staticFrozen _ _ _ _ _ _ h ?_
      intro hc
      rw [hc] at h1
      exact absurd (show bodyInvMass s (BodyRef.particle pid) = 0 from h.1) (ne_of_gt h1)
    · rw [if_neg h1]; exact h
  by_cases h2 : 0 < bodyInvMass s c.b
  · rw [if_pos h2]
    refine bodyModify_staticFrozen _ _ _ _ _ _ step1 ?_
    intro hc
    rw [hc] at h2
    exact absurd (show bodyInvMass s (BodyRef.particle pid) = 0 from h.1) (ne_of_gt h2)
  · rw [if_neg h2]; exact step1

/-- The friction pass never moves a static particle. -/
theorem frictionPass_staticFrozen (s : Store) (c : Contact) (ia ib jj : ℚ)
    (x v : Vec2) (pid : Nat) (h : staticFrozen x v pid s) :
    staticFrozen x v pid (frictionPass s c ia ib jj) := by
  unfold frictionPass
  simp only []
  split_ifs
  · exact h
  · exact applyImpulse_staticFrozen _ _ _ _ _ _ h

/-- Contact resolution never moves a static particle. -/
theorem resolve_contact_staticFrozen (s : Store) (c : Contact)
    (x v : Vec2) (pid : Nat) (h : staticFrozen x v pid s) :
    staticFrozen x v pid (resolve_contact s c) := by
  unfold resolve_contact
  by_cases h1 : ¬ (bodyAlive s c.a ∧ bodyAlive s c.b)
  · rw [if_pos h1]; exact h
  · rw [if_neg h1]
    simp only []
    by_cases h2 : bodyInvMass s c.a = 0 ∧ bodyInvMass s c.b = 0
    · rw [if_pos h2]; exact h
    · rw [if_neg h2]
      by_cases h3 : 0 < (bodyVelocity s c.b - bodyVelocity s c.a).dot c.normal
      · rw [if_pos h3]; exact h
      · rw [if_neg h3]
        apply frictionPass_staticFrozen
        apply applyImpulse_staticFrozen
        split_ifs
        · exact wakeBody_staticFrozen _ _ _ _ _ (wakeBody_staticFrozen _ _ _ _ _ h)
        · exact h

/-- The positional correction never moves a static particle. -/
theorem positional_correction_staticFrozen (s : Store) (c : Contact)
    (x v : Vec2) (pid : Nat) (h : staticFrozen x v pid s) :
    staticFrozen x v pid (positional_correction s c) := by
  unfold positional_correction
  by_cases h0 : bodyInvMass s c.a + bodyInvMass s c.b = 0
  · rw [if_pos h0]; exact h
  · rw [if_neg h0]
    simp only []
    have step1 : ∀ corr : Vec2, staticFrozen x v pid
        (if 0 < bodyInvMass s c.a then
          bodyModify s c.a (fun p => { p with position := p.position - corr * bodyInvMass s c.a })
        else s) := by
      intro corr
      by_cases h1 : 0 < bodyInvMass s c.a
      · rw [if_pos h1]
        refine bodyModify_staticFrozen _ _ _ _ _ _ h ?_
        intro hc
        rw [hc] at h1
        exact absurd (show bodyInvMass s (BodyRef.particle pid) = 0 from h.1) (ne_of_gt h1)
      · rw [if_neg h1]; exact h
    by_cases h2 : 0 < bodyInvMass s c.b
    · rw [if_pos h2]
      refine bodyModify_staticFrozen _ _ _ _ _ _ (step1 _) ?_
      intro hc
      rw [hc] at h2
      exact absurd (show bodyInvMass s (BodyRef.particle pid) = 0 from h.1) (ne_of_gt h2)
    · rw [if_neg h2]; exact step1 _

/-- Writing another object keeps a static particle pinned. -/
theorem storeSet_staticFrozen (s : Store) (q : Nat) (p : Particle)
    (x v : Vec2) (pid : Nat) (h : staticFrozen x v pid s) (hne : q ≠ pid) :
    staticFrozen x v pid (storeSet s q p) := by
  refine ⟨?_, ?_, ?_⟩
  · rw [storeGet_storeSet_ne s pid q p (Ne.symm hne)]; exact h.1
  · rw [storeGet_storeSet_ne s pid q p (Ne.symm hne)]; exact h.2.1
  · rw [storeGet_storeSet_ne s pid q p (Ne.symm hne)]; exact h.2.2

/-- The constraint endpoint update keeps a static particle pinned when
it targets another particle. -/
theorem constraintMove_staticFrozen (q : Nat) (share prev : Vec2) (dt : ℚ) (s : Store)
    (x v : Vec2) (pid : Nat) (h : staticFrozen x v pid s) (hne : q ≠ pid) :
    staticFrozen x v pid (constraintMove q share prev dt s) := by
  unfold constraintMove
  exact storeSet_staticFrozen _ _ _ _ _ _ h hne

/-- The distance constraint never moves a static particle: both
endpoint writes are guarded by positive inverse mass. -/
theorem solveConstraint_staticFrozen (con : DistanceConstraint) (dt : ℚ) (s : Store)
    (x v : Vec2) (pid : Nat) (h : staticFrozen x v pid s) :
    staticFrozen x v pid (solveConstraint con dt s) := by
  unfold solveConstraint
  simp only []
  split_ifs with hdead hnear htol hmass hb ha ha <;>
    first
      | exact h
      | refine constraintMove_staticFrozen _ _ _ _ _ _ _ _
          (constraintMove_staticFrozen _ _ _ _ _ _ _ _ h ?_) ?_
      | refine constraintMove_staticFrozen _ _ _ _ _ _ _ _ h ?_
  all_goals
    intro hc
  all_goals
    first
      | exact absurd h.1 (ne_of_gt (by rw [hc] at ha; exact ha))
      | exact absurd h.1 (ne_of_gt (by rw [hc] at hb; exact hb))

/-- One solver iteration never moves a static particle. -/
theorem solverIteration_staticFrozen (contacts : List Contact)
    (constraints : List DistanceConstraint) (dt : ℚ) (s : Store)
    (x v : Vec2) (pid : Nat) (h : staticFrozen x v pid s) :
    staticFrozen x v pid (solverIteration contacts constraints dt s) := by
  unfold solverIteration
  apply foldl_preserves (staticFrozen x v pid)
    (fun s con => solveConstraint con dt s)
    (fun s con hs => solveConstraint_staticFrozen con dt s x v pid hs)
  exact foldl_preserves (staticFrozen x v pid) resolve_contact
    (fun s c hs => resolve_contact_staticFrozen s c x v pid hs) contacts s h

/-- The whole solver loop never moves a static particle. -/
theorem solverLoop_staticFrozen (n : Nat) (contacts : List Contact)
    (constraints : List DistanceConstraint) (dt : ℚ) (s : Store)
    (x v : Vec2) (pid : Nat) (h : staticFrozen x v pid s) :
    staticFrozen x v pid (solverLoop n contacts constraints dt s) := by
  induction n generalizing s with
  | zero => exact h
  | succ m ih =>
      exact ih _ (solverIteration_staticFrozen contacts constraints dt s x v pid h)

/-- One full step never moves a static particle, whether or not the
integration loop aborts on a missing acceleration attribute. -/
theorem step_staticFrozen (sys : ParticleSystem) (dt : ℚ)
    (x v : Vec2) (pid : Nat) (h : staticFrozen x v pid sys.store) :
    staticFrozen x v pid ((sys.step dt).2).store := by
  unfold ParticleSystem.step
  by_cases hp : sys.paused
  · rw [if_pos hp]
    exact h
  · rw [if_neg hp]
    simp only []
    have h1 : staticFrozen x v pid
        (forcePhase sys.global_forces sys.local_forces dt sys.store sys.particles) := by
      have hf := forcePhase_fields sys.global_forces sys.local_forces dt sys.particles
        sys.store pid
      exact ⟨hf.2.2.trans h.1, hf.1.trans h.2.1, hf.2.1.trans h.2.2⟩
    have h2 := integratePhase_staticFrozen dt sys.particles x v pid _ h1
    cases hI : integratePhase dt
        (forcePhase sys.global_forces sys.local_forces dt sys.store sys.particles)
        sys.particles with
    | mk flag s2 =>
        rw [hI] at h2
        cases flag with
        | false => exact h2
        | true =>
            simp only []
            apply foldl_preserves (staticFrozen x v pid) positional_correction
              (fun s c hs => positional_correction_staticFrozen s c x v pid hs)
            exact solverLoop_staticFrozen _ _ _ _ _ _ _ _ h2

/-- Any number of steps never moves a static particle. -/
theorem stepN_staticFrozen (sys : ParticleSystem) (dt : ℚ) (n : Nat)
    (x v : Vec2) (pid : Nat) (h : staticFrozen x v pid sys.store) :
    staticFrozen x v pid (stepN sys dt n).store := by
  induction n generalizing sys with
  | zero => exact h
  | succ m ih => exact ih _ (step_staticFrozen sys dt x v pid h)

/-- C3.  Static immovability: a particle with zero inverse mass keeps
its position and its velocity across any number of steps, whatever
forces, containers, constraints and other particles the system holds.
Every write of the pipeline (forces, integration, impulses, positional
correction, constraint projection) either touches only the force
accumulator or is guarded by positive inverse mass. -/
theorem claim3_static_immovability (sys : ParticleSystem) (dt : ℚ) (n : Nat) (pid : Nat)
    (h : (storeGet sys.store pid).inv_mass = 0) :
    (storeGet (stepN sys dt n).store pid).position = (storeGet sys.store pid).position ∧
    (storeGet (stepN sys dt n).store pid).velocity = (storeGet sys.store pid).velocity := by
  have hfrozen := stepN_staticFrozen sys dt n (storeGet sys.store pid).position
    (storeGet sys.store pid).velocity pid ⟨h, rfl, rfl⟩
  exact ⟨hfrozen.2.1, hfrozen.2.2⟩

/-- Witness scene for C3: a pinned particle with a moving neighbour, a
gravity force, both container kinds and a distance constraint. -/
def staticScene : ParticleSystem :=
  { store := [testParticle 0 0 0 0 1 0, testParticle 0 (3/2) 0 0 1 1]
    particles := [0, 1]
    global_forces := [Force.gravity ⟨0, 800⟩]
    local_forces := [Force.linearDrag (1/10)]
    paused := false
    broadphase := { cell_size := 20, inv_cell_size := 1/20, cells := [] }
    solver_iterations := 20
    containers := [mkRectangleContainer 0 0 1000 700, Container.circle ⟨0, 0⟩ 50]
    constraints := [mkDistanceConstraint 0 1 (3/2)]
    }

/-- Witness for C3 at the concrete scene over three steps. -/
theorem claim3_witness :
    (storeGet (stepN staticScene (1/60) 3).store 0).position =
      (storeGet staticScene.store 0).position ∧
    (storeGet (stepN staticScene (1/60) 3).store 0).velocity =
      (storeGet staticScene.store 0).velocity :=
  claim3_static_immovability staticScene (1/60) 3 0 (by with_unfolding_all decide)

/-- Axis aligned bounding box of a particle as the broadphase insert
builds it: position minus and plus the radius vector. -/
def particleAABB (p : Particle) : Vec2 × Vec2 :=
  (p.position - ⟨p.radius, p.radius⟩, p.position + ⟨p.radius, p.radius⟩)

/-- Overlap of two axis aligned boxes, AABB.overlaps of
engine/math/aabb.py: no separation along either axis. -/
def aabbOverlaps (a b : Vec2 × Vec2) : Prop :=
  ¬ (a.2.x < b.1.x ∨ b.2.x < a.1.x) ∧ ¬ (a.2.y < b.1.y ∨ b.2.y < a.1.y)

instance (a b : Vec2 × Vec2) : Decidable (aabbOverlaps a b) := by
  unfold aabbOverlaps
  infer_instance

/-- Builds the grid by inserting the particles of a list in order,
identified by their index, as the per frame rebuild of
ParticleSystem.step enumerates them. -/
def buildGridAux (g : SpatialHashGrid) (i : Nat) : List Particle → SpatialHashGrid
  | [] => g
  | p :: rest => buildGridAux (gridInsert g i p) (i + 1) rest

/-- Grid built from scratch over a particle list. -/
def buildGrid (g0 : SpatialHashGrid) (ps : List Particle) : SpatialHashGrid :=
  buildGridAux g0 0 ps

/-- Occupants of a cell: the first entry of the dictionary with the
given coordinate, the empty list when the key is absent. -/
def cellMembers : List ((Int × Int) × List Nat) → (Int × Int) → List Nat
  | [], _ => []
  | (c, ps) :: rest, coord => if c = coord then ps else cellMembers rest coord

/-- Canonical keys of a pair list. -/
def keysOf (res : List (Nat × Nat)) : List (Nat × Nat) :=
  res.map (fun ab => pairKey ab.1 ab.2)

/-- Membership in the inclusive integer range. -/
theorem intRange_mem (lo hi c : Int) : c ∈ intRange lo hi ↔ lo ≤ c ∧ c ≤ hi := by
  simp only [intRange, List.mem_map, List.mem_range]
  constructor
  · rintro ⟨k, hk, hke⟩
    omega
  · rintro ⟨h1, h2⟩
    exact ⟨(c - lo).toNat, by omega, by omega⟩

/-- Membership in the cell rectangle of a box. -/
theorem cellsForAABB_mem (g : SpatialHashGrid) (lo hi : Vec2) (coord : Int × Int) :
    coord ∈ cellsForAABB g lo hi ↔
      (⌊lo.x * g.inv_cell_size⌋ ≤ coord.1 ∧ coord.1 ≤ ⌊hi.x * g.inv_cell_size⌋) ∧
      (⌊lo.y * g.inv_cell_size⌋ ≤ coord.2 ∧ coord.2 ≤ ⌊hi.y * g.inv_cell_size⌋) := by
  obtain ⟨cx, cy⟩ := coord
  simp only [cellsForAABB, hashCoord, List.mem_flatMap, List.mem_map]
  constructor
  · rintro ⟨a, ha, b, hb, heq⟩
    obtain ⟨rfl, rfl⟩ : a = cx ∧ b = cy := by
      exact ⟨congrArg Prod.fst heq, congrArg Prod.snd heq⟩
    exact ⟨(intRange_mem _ _ _).mp ha, (intRange_mem _ _ _).mp hb⟩
  · rintro ⟨hx, hy⟩
    exact ⟨cx, (intRange_mem _ _ _).mpr hx, cy, (intRange_mem _ _ _).mpr hy, rfl⟩

/-- The cells of a box only depend on the inverse cell size. -/
theorem cellsForAABB_congr (g g2 : SpatialHashGrid)
    (h : g.inv_cell_size = g2.inv_cell_size) (lo hi : Vec2) :
    cellsForAABB g lo hi = cellsForAABB g2 lo hi := by
  simp [cellsForAABB, hashCoord, h]

/-- Appending a particle to one cell key: lookups either see the old
occupants or additionally the new particle at the touched key. -/
theorem cellMembers_cellsAppend (cells : List ((Int × Int) × List Nat))
    (coord : Int × Int) (pid : Nat) (c : Int × Int) (q : Nat) :
    q ∈ cellMembers (cellsAppend cells coord pid) c ↔
      (q ∈ cellMembers cells c ∨ (q = pid ∧ c = coord)) := by
  induction cells with
  | nil =>
      by_cases hc : coord = c
      · subst hc
        simp [cellsAppend, cellMembers]
      · simp only [cellsAppend, cellMembers, if_neg hc, List.not_mem_nil, false_or]
        constructor
        · intro hfalse
          exact absurd hfalse (by simp)
        · rintro ⟨hq, hcc⟩
          exact absurd hcc.symm hc
  | cons entry rest ih =>
      obtain ⟨c0, ps⟩ := entry
      by_cases h0 : c0 = coord
      · subst h0
        by_cases hc : c0 = c
        · subst hc
          simp [cellsAppend, cellMembers]
        · have hc2 : ¬ c = c0 := fun h => hc h.symm
          simp [cellsAppend, cellMembers, hc, hc2]
      · by_cases hc : c0 = c
        · subst hc
          simp [cellsAppend, cellMembers, h0]
        · simp only [cellsAppend, if_neg h0, cellMembers, if_neg hc]
          exact ih

/-- Existing occupants survive an append over any coordinate list. -/
theorem cellMembers_foldAppend (coords : List (Int × Int)) (pid : Nat) :
    ∀ (cells : List ((Int × Int) × List Nat)) (c : Int × Int) (q : Nat),
      q ∈ cellMembers cells c →
      q ∈ cellMembers (coords.foldl (fun cs coord => cellsAppend cs coord pid) cells) c := by
  induction coords with
  | nil => exact fun cells c q h => h
  | cons coord rest ih =>
      intro cells c q h
      exact ih (cellsAppend cells coord pid) c q
        ((cellMembers_cellsAppend cells coord pid c q).mpr (Or.inl h))

/-- The inserted particle lands in every coordinate of the list. -/
theorem cellMembers_foldAppend_self (coords : List (Int × Int)) (pid : Nat) :
    ∀ (cells : List ((Int × Int) × List Nat)) (c : Int × Int), c ∈ coords →
      pid ∈ cellMembers (coords.foldl (fun cs coord => cellsAppend cs coord pid) cells) c := by
  induction coords with
  | nil => intro cells c h; exact absurd h (List.not_mem_nil c)
  | cons coord rest ih =>
      intro cells c h
      rcases List.mem_cons.mp h with hc | hc
      · subst hc
        exact cellMembers_foldAppend rest pid (cellsAppend cells c pid) c pid
          ((cellMembers_cellsAppend cells c pid c pid).mpr (Or.inr ⟨rfl, rfl⟩))
      · exact ih (cellsAppend cells coord pid) c hc

/-- Inserting does not change the cell size data. -/
theorem gridInsert_inv_cell_size (g : SpatialHashGrid) (pid : Nat) (p : Particle) :
    (gridInsert g pid p).inv_cell_size = g.inv_cell_size := rfl

/-- Insertion keeps prior occupants. -/
theorem gridInsert_mem_mono (g : SpatialHashGrid) (i : Nat) (p : Particle)
    (c : Int × Int) (q : Nat) (h : q ∈ cellMembers g.cells c) :
    q ∈ cellMembers (gridInsert g i p).cells c := by
  unfold gridInsert
  exact cellMembers_foldAppend _ i g.cells c q h

/-- Insertion records the particle in every cell its box overlaps. -/
theorem gridInsert_mem_self (g : SpatialHashGrid) (i : Nat) (p : Particle)
    (c : Int × Int)
    (h : c ∈ cellsForAABB g (particleAABB p).1 (particleAABB p).2) :
    i ∈ cellMembers (gridInsert g i p).cells c := by
  unfold gridInsert
  exact cellMembers_foldAppend_self _ i g.cells c h

/-- Building the grid keeps the cell size data. -/
theorem buildGridAux_inv_cell_size (ps : List Particle) :
    ∀ (g : SpatialHashGrid) (i : Nat),
      (buildGridAux g i ps).inv_cell_size = g.inv_cell_size := by
  induction ps with
  | nil => exact fun g i => rfl
  | cons p rest ih => exact fun g i => (ih (gridInsert g i p) (i + 1)).trans rfl

/-- Building the grid keeps prior occupants. -/
theorem buildGridAux_mem_mono (ps : List Particle) :
    ∀ (g : SpatialHashGrid) (i : Nat) (c : Int × Int) (q : Nat),
      q ∈ cellMembers g.cells c → q ∈ cellMembers (buildGridAux g i ps).cells c := by
  induction ps with
  | nil => exact fun g i c q h => h
  | cons p rest ih =>
      intro g i c q h
      exact ih (gridInsert g i p) (i + 1) c q (gridInsert_mem_mono g i p c q h)

/-- Every particle of the built grid occupies every cell overlapped by
its box. -/
theorem buildGridAux_mem (ps : List Particle) :
    ∀ (g : SpatialHashGrid) (i0 k : Nat) (hk : k < ps.length) (c : Int × Int),
      c ∈ cellsForAABB g (particleAABB (ps.get ⟨k, hk⟩)).1 (particleAABB (ps.get ⟨k, hk⟩)).2 →
      (i0 + k) ∈ cellMembers (buildGridAux g i0 ps).cells c := by
  induction ps with
  | nil => intro g i0 k hk; exact absurd hk (by simp)
  | cons p rest ih =>
      intro g i0 k hk c hc
      cases k with
      | zero =>
          show (i0 + 0) ∈ cellMembers (buildGridAux (gridInsert g i0 p) (i0 + 1) rest).cells c
          have : i0 ∈ cellMembers (gridInsert g i0 p).cells c :=
            gridInsert_mem_self g i0 p c hc
          simpa using buildGridAux_mem_mono rest (gridInsert g i0 p) (i0 + 1) c i0 this
      | succ k2 =>
          have hk2 : k2 < rest.length := by simpa using hk
          have hc2 : c ∈ cellsForAABB (gridInsert g i0 p)
              (particleAABB (rest.get ⟨k2, hk2⟩)).1 (particleAABB (rest.get ⟨k2, hk2⟩)).2 := by
            rw [cellsForAABB_congr (gridInsert g i0 p) g rfl]
            exact hc
          have := ih (gridInsert g i0 p) (i0 + 1) k2 hk2 c hc2
          show (i0 + (k2 + 1)) ∈ cellMembers (buildGridAux (gridInsert g i0 p) (i0 + 1) rest).cells c
          have harith : i0 + (k2 + 1) = (i0 + 1) + k2 := by omega
          rw [harith]
          exact this

/-- Two overlapping boxes share a grid cell: the floor cell of the
componentwise maximum of the two lower corners lies in the cell
rectangle of both. -/
theorem overlap_shared_cell (g : SpatialHashGrid) (hpos : 0 < g.inv_cell_size)
    (a b : Vec2 × Vec2) (hA : a.1.x ≤ a.2.x) (hAy : a.1.y ≤ a.2.y)
    (hB : b.1.x ≤ b.2.x) (hBy : b.1.y ≤ b.2.y) (hov : aabbOverlaps a b) :
    ∃ c : Int × Int, c ∈ cellsForAABB g a.1 a.2 ∧ c ∈ cellsForAABB g b.1 b.2 := by
  obtain ⟨hx, hy⟩ := hov
  push_neg at hx hy
  refine ⟨(⌊max a.1.x b.1.x * g.inv_cell_size⌋, ⌊max a.1.y b.1.y * g.inv_cell_size⌋), ?_, ?_⟩
  · rw [cellsForAABB_mem]
    constructor
    · constructor
      · exact Int.floor_le_floor (mul_le_mul_of_nonneg_right (le_max_left _ _) (le_of_lt hpos))
      · refine Int.floor_le_floor (mul_le_mul_of_nonneg_right ?_ (le_of_lt hpos))
        exact max_le hA hx.1
    · constructor
      · exact Int.floor_le_floor (mul_le_mul_of_nonneg_right (le_max_left _ _) (le_of_lt hpos))
      · refine Int.floor_le_floor (mul_le_mul_of_nonneg_right ?_ (le_of_lt hpos))
        exact max_le hAy hy.1
  · rw [cellsForAABB_mem]
    constructor
    · constructor
      · exact Int.floor_le_floor (mul_le_mul_of_nonneg_right (le_max_right _ _) (le_of_lt hpos))
      · refine Int.floor_le_floor (mul_le_mul_of_nonneg_right ?_ (le_of_lt hpos))
        exact max_le hx.2 hB
    · constructor
      · exact Int.floor_le_floor (mul_le_mul_of_nonneg_right (le_max_right _ _) (le_of_lt hpos))
      · refine Int.floor_le_floor (mul_le_mul_of_nonneg_right ?_ (le_of_lt hpos))
        exact max_le hy.2 hBy

/-- The canonical key ignores the order of the pair. -/
theorem pairKey_comm (a b : Nat) : pairKey a b = pairKey b a := by
  unfold pairKey
  split_ifs <;>
    first
      | rfl
      | (exfalso; omega)
      | (have hab : a = b := by omega
         subst hab
         rfl)

/-- Two distinct members of a list appear as an ordered pair in one of
the two orders. -/
theorem allPairs_mem_of_mem (l : List Nat) (x y : Nat) (hx : x ∈ l) (hy : y ∈ l)
    (hxy : x ≠ y) : (x, y) ∈ allPairs l ∨ (y, x) ∈ allPairs l := by
  induction l with
  | nil => exact absurd hx (List.not_mem_nil x)
  | cons a rest ih =>
      rcases List.mem_cons.mp hx with hax | hx2
      · subst hax
        have hy2 : y ∈ rest := by
          rcases List.mem_cons.mp hy with h | h
          · exact absurd h.symm hxy
          · exact h
        exact Or.inl (by simp [allPairs]; exact Or.inl hy2)
      · rcases List.mem_cons.mp hy with hay | hy2
        · subst hay
          exact Or.inr (by simp [allPairs]; exact Or.inl hx2)
        · rcases ih hx2 hy2 with h | h
          · exact Or.inl (by simp [allPairs]; exact Or.inr h)
          · exact Or.inr (by simp [allPairs]; exact Or.inr h)

/-- A list producing an ordered pair has at least two entries. -/
theorem allPairs_length (l : List Nat) (ab : Nat × Nat) (h : ab ∈ allPairs l) :
    2 ≤ l.length := by
  induction l with
  | nil => simp [allPairs] at h
  | cons a rest ih =>
      simp only [allPairs, List.mem_append, List.mem_map] at h
      rcases h with ⟨b, hb, _⟩ | h
      · cases rest with
        | nil => exact absurd hb (List.not_mem_nil b)
        | cons _ _ => simp
      · have := ih h
        simp only [List.length_cons]
        omega

/-- Invariant of the deduplicating fold of compute_pairs: the seen set
and the keys of the result list hold the same keys, and the result
keys are free of duplicates. -/
def pairsInv (st : List (Nat × Nat) × List (Nat × Nat)) : Prop :=
  (∀ k, k ∈ st.1 ↔ k ∈ keysOf st.2) ∧ (keysOf st.2).Nodup

theorem addPair_inv (st : List (Nat × Nat) × List (Nat × Nat)) (ab : Nat × Nat)
    (h : pairsInv st) : pairsInv (addPair st ab) := by
  unfold addPair
  by_cases hk : pairKey ab.1 ab.2 ∈ st.1
  · simpa [hk] using h
  · simp only [hk, if_false]
    have hkeys : keysOf (st.2 ++ [ab]) = keysOf st.2 ++ [pairKey ab.1 ab.2] := by
      simp [keysOf]
    constructor
    · intro k
      show k ∈ pairKey ab.1 ab.2 :: st.1 ↔ k ∈ keysOf (st.2 ++ [ab])
      rw [hkeys]
      simp only [List.mem_cons, List.mem_append, List.mem_singleton,
        List.not_mem_nil, or_false]
      constructor
      · rintro (rfl | hks)
        · exact Or.inr rfl
        · exact Or.inl ((h.1 k).mp hks)
      · rintro (hks | rfl)
        · exact Or.inr ((h.1 k).mpr hks)
        · exact Or.inl rfl
    · show (keysOf (st.2 ++ [ab])).Nodup
      rw [hkeys]
      refine List.Nodup.append h.2 (List.nodup_singleton _) ?_
      intro k hk1 hk2
      rw [List.mem_singleton] at hk2
      rw [hk2] at hk1
      exact hk ((h.1 _).mpr hk1)

/-- An occupied cell lookup exposes an actual dictionary entry. -/
theorem cellMembers_entry (cells : List ((Int × Int) × List Nat)) (c : Int × Int)
    (q : Nat) (h : q ∈ cellMembers cells c) : (c, cellMembers cells c) ∈ cells := by
  induction cells with
  | nil => simp [cellMembers] at h
  | cons entry rest ih =>
      obtain ⟨c0, ps⟩ := entry
      by_cases hc : c0 = c
      · subst hc
        simp [cellMembers]
      · simp only [cellMembers, if_neg hc] at h ⊢
        exact List.mem_cons_of_mem _ (ih h)

/-- A key once seen stays seen through a deduplication step. -/
theorem addPair_seen_mono (st : List (Nat × Nat) × List (Nat × Nat)) (ab : Nat × Nat)
    (k : Nat × Nat) (h : k ∈ st.1) : k ∈ (addPair st ab).1 := by
  unfold addPair
  by_cases hk : pairKey ab.1 ab.2 ∈ st.1 <;> simp [hk, h]

/-- A deduplication step always leaves its own key seen. -/
theorem addPair_adds (st : List (Nat × Nat) × List (Nat × Nat)) (ab : Nat × Nat) :
    pairKey ab.1 ab.2 ∈ (addPair st ab).1 := by
  unfold addPair
  by_cases hk : pairKey ab.1 ab.2 ∈ st.1 <;> simp [hk]

/-- The deduplicating fold preserves its invariant. -/
theorem foldPairs_inv (l : List (Nat × Nat)) :
    ∀ st, pairsInv st → pairsInv (l.foldl addPair st) := by
  induction l with
  | nil => exact fun st h => h
  | cons ab rest ih => exact fun st h => ih _ (addPair_inv st ab h)

/-- Seen keys survive the deduplicating fold. -/
theorem foldPairs_seen_mono (l : List (Nat × Nat)) :
    ∀ (st : List (Nat × Nat) × List (Nat × Nat)) (k : Nat × Nat),
      k ∈ st.1 → k ∈ (l.foldl addPair st).1 := by
  induction l with
  | nil => exact fun st k h => h
  | cons ab rest ih => exact fun st k h => ih _ k (addPair_seen_mono st ab k h)

/-- The deduplicating fold marks the key of every processed pair. -/
theorem foldPairs_adds (l : List (Nat × Nat)) :
    ∀ (st : List (Nat × Nat) × List (Nat × Nat)) (ab : Nat × Nat),
      ab ∈ l → pairKey ab.1 ab.2 ∈ (l.foldl addPair st).1 := by
  induction l with
  | nil => intro st ab h; exact absurd h (List.not_mem_nil ab)
  | cons cd rest ih =>
      intro st ab h
      rcases List.mem_cons.mp h with h | h
      · subst h
        exact foldPairs_seen_mono rest (addPair st ab) _ (addPair_adds st ab)
      · exact ih (addPair st cd) ab h

/-- One cell of the compute_pairs outer loop: cells below two occupants
are skipped, the others feed all their ordered pairs to the
deduplicating fold. -/
def cellStep (st : List (Nat × Nat) × List (Nat × Nat))
    (cell : (Int × Int) × List Nat) : List (Nat × Nat) × List (Nat × Nat) :=
  if cell.2.length < 2 then st else (allPairs cell.2).foldl addPair st

theorem computePairs_eq (g : SpatialHashGrid) :
    computePairs g = (g.cells.foldl cellStep ([], [])).2 := rfl

/-- The outer fold preserves the deduplication invariant. -/
theorem cellsFold_inv (cells : List ((Int × Int) × List Nat)) :
    ∀ st, pairsInv st → pairsInv (cells.foldl cellStep st) := by
  induction cells with
  | nil => exact fun st h => h
  | cons cell rest ih =>
      intro st h
      refine ih _ ?_
      unfold cellStep
      by_cases hlen : cell.2.length < 2
      · simpa [hlen] using h
      · rw [if_neg hlen]
        exact foldPairs_inv _ st h

/-- Seen keys survive the outer fold. -/
theorem cellsFold_seen_mono (cells : List ((Int × Int) × List Nat)) :
    ∀ (st : List (Nat × Nat) × List (Nat × Nat)) (k : Nat × Nat),
      k ∈ st.1 → k ∈ (cells.foldl cellStep st).1 := by
  induction cells with
  | nil => exact fun st k h => h
  | cons cell rest ih =>
      intro st k h
      refine ih _ k ?_
      unfold cellStep
      by_cases hlen : cell.2.length < 2
      · simpa [hlen] using h
      · rw [if_neg hlen]
        exact foldPairs_seen_mono _ st k h

/-- Every ordered pair of every dictionary cell gets its key marked by
the outer fold. -/
theorem cellsFold_adds (cells : List ((Int × Int) × List Nat)) :
    ∀ (st : List (Nat × Nat) × List (Nat × Nat)) (c : Int × Int)
      (ms : List Nat) (ab : Nat × Nat),
      (c, ms) ∈ cells → ab ∈ allPairs ms →
      pairKey ab.1 ab.2 ∈ (cells.foldl cellStep st).1 := by
  induction cells with
  | nil => intro st c ms ab h; exact absurd h (List.not_mem_nil _)
  | cons cell rest ih =>
      intro st c ms ab hmem hab
      rcases List.mem_cons.mp hmem with h | h
      · refine cellsFold_seen_mono rest (cellStep st cell) _ ?_
        rw [← h]
        have h2 : 2 ≤ ms.length := allPairs_length ms ab hab
        have hng : ¬ ((c, ms).2.length < 2) := by
          show ¬ ms.length < 2
          omega
        unfold cellStep
        rw [if_neg hng]
        exact foldPairs_adds (allPairs ms) st ab hab
      · exact ih (cellStep st cell) c ms ab h hab

/-- C4.  compute_pairs over the grid built by inserting the particles
of a list never repeats an unordered pair (the canonical keys of the
result are free of duplicates) and it reports every pair of inserted
particles with nonnegative radii whose axis aligned bounding boxes
overlap, whenever the grid was constructed with an accepted cell
size. -/
theorem claim4_broadphase_unique_and_complete (cs : ℚ) (g0 : SpatialHashGrid)
    (ps : List Particle)
    (hg0 : mkSpatialHashGrid cs = Except.ok g0)
    (hr : ∀ p ∈ ps, 0 ≤ p.radius) :
    (keysOf (computePairs (buildGrid g0 ps))).Nodup ∧
    (∀ (i j : Nat) (hi : i < ps.length) (hj : j < ps.length), i ≠ j →
      aabbOverlaps (particleAABB (ps.get ⟨i, hi⟩)) (particleAABB (ps.get ⟨j, hj⟩)) →
      pairKey i j ∈ keysOf (computePairs (buildGrid g0 ps))) := by
  have hpos : 0 < g0.inv_cell_size := by
    unfold mkSpatialHashGrid at hg0
    by_cases hcs : cs ≤ 0
    · rw [if_pos hcs] at hg0
      exact absurd hg0 (by simp)
    · rw [if_neg hcs] at hg0
      have hg0e : ({ cell_size := cs, inv_cell_size := 1 / cs, cells := [] }
          : SpatialHashGrid) = g0 := by
        injection hg0
      rw [← hg0e]
      push_neg at hcs
      positivity
  have hinv : pairsInv ((buildGrid g0 ps).cells.foldl cellStep ([], [])) := by
    refine cellsFold_inv _ ([], []) ?_
    constructor
    · intro k
      simp [keysOf]
    · simp [keysOf]
  constructor
  · rw [computePairs_eq]
    exact hinv.2
  · intro i j hi hj hij hov
    have hgsize : (buildGrid g0 ps).inv_cell_size = g0.inv_cell_size :=
      buildGridAux_inv_cell_size ps g0 0
    have hposg : 0 < (buildGrid g0 ps).inv_cell_size := by
      rw [hgsize]
      exact hpos
    have hri : 0 ≤ (ps.get ⟨i, hi⟩).radius := hr _ (List.get_mem ps i hi)
    have hrj : 0 ≤ (ps.get ⟨j, hj⟩).radius := hr _ (List.get_mem ps j hj)
    obtain ⟨c, hca, hcb⟩ := overlap_shared_cell (buildGrid g0 ps) hposg
      (particleAABB (ps.get ⟨i, hi⟩)) (particleAABB (ps.get ⟨j, hj⟩))
      (by simp only [particleAABB, vec2_sub_x, vec2_add_x]; linarith)
      (by simp only [particleAABB, vec2_sub_y, vec2_add_y]; linarith)
      (by simp only [particleAABB, vec2_sub_x, vec2_add_x]; linarith)
      (by simp only [particleAABB, vec2_sub_y, vec2_add_y]; linarith)
      hov
    rw [cellsForAABB_congr (buildGrid g0 ps) g0 hgsize] at hca hcb
    have hmi : i ∈ cellMembers (buildGrid g0 ps).cells c := by
      have := buildGridAux_mem ps g0 0 i hi c hca
      simpa using this
    have hmj : j ∈ cellMembers (buildGrid g0 ps).cells c := by
      have := buildGridAux_mem ps g0 0 j hj c hcb
      simpa using this
    have hentry : (c, cellMembers (buildGrid g0 ps).cells c) ∈ (buildGrid g0 ps).cells :=
      cellMembers_entry _ c i hmi
    have hkey : pairKey i j ∈ ((buildGrid g0 ps).cells.foldl cellStep ([], [])).1 := by
      rcases allPairs_mem_of_mem (cellMembers (buildGrid g0 ps).cells c) i j hmi hmj hij
        with h | h
      · exact cellsFold_adds _ ([], []) c _ (i, j) hentry h
      · rw [pairKey_comm i j]
        exact cellsFold_adds _ ([], []) c _ (j, i) hentry h
    rw [computePairs_eq]
    exact (hinv.1 (pairKey i j)).mp hkey

/-- Concrete broadphase scene for the C4 claim: a fresh grid of cell
size ten and two unit radius particles one unit apart on the x axis,
whose bounding boxes overlap. -/
def gridW : SpatialHashGrid :=
  { cell_size := 10
    inv_cell_size := 1/10
    cells := [] }

/-- The two particles of the concrete broadphase scene. -/
def psW : List Particle := [testParticle 0 0 0 0 1 1, testParticle 1 0 0 0 1 1]

theorem claim4_witness :
    (keysOf (computePairs (buildGrid gridW psW))).Nodup ∧
    pairKey 0 1 ∈ keysOf (computePairs (buildGrid gridW psW)) := by
  have h := claim4_broadphase_unique_and_complete 10 gridW psW
    (by with_unfolding_all decide)
    (by with_unfolding_all decide)
  refine ⟨h.1, h.2 0 1 (by decide) (by decide) (by decide) ?_⟩
  show aabbOverlaps (particleAABB (psW.get ⟨0, by decide⟩))
    (particleAABB (psW.get ⟨1, by decide⟩))
  with_unfolding_all decide
